import Mathlib

/-!
# Verification of the AABB physics core of `tobidot/bs--library`

Shallow embedding of the 2D axis-aligned bounding-box physics engine
(`src/math/Rect.ts` / `Vector.ts`, `src/physics/Physics.ts`,
`src/physics/AABBPhysicsEngine.ts`) and theorems checking the
natural-language specification against it.

Modelling decisions:
* JavaScript numbers are modelled as exact rationals (`ℚ`); the numeric
  literals of the source (`0.016`, `0.999`, …) are taken at face value.
* `Math.sqrt` (used only by `Vector2D.normalize`) is modelled as an explicit
  function parameter `sqrtFn : ℚ → ℚ`; theorems whose conclusion depends on a
  square root constrain `sqrtFn` at the inputs actually used (for example
  `sqrtFn 0 = 0`, which is true of `Math.sqrt`).
* In-place mutation of vectors, rects and proxies is modelled by explicit
  state passing: each operation returns the updated value, and the engine's
  proxy array is a `List` updated positionally, in the same order as the
  source's `forEach` loops.
* The repository contains several historical revisions of the engine; the
  later revision (static-body aware resolvers, single-distance world
  correction, `onWorldCollision` notification) is the one embedded here, as
  it is the variant the specification adopts as canonical.  The superseded
  double-correction world step is also embedded, under a separate name, for
  comparison.
* The owner callbacks `onCollision` / `onWorldCollision` notify entities
  outside the physics state and do not mutate proxies; they are not part of
  the state transition modelled here.
-/

/-- `Vector2D` (src/math/Vector.ts): a 2D vector with components `x`, `y`. -/
structure Vector2D where
  x : ℚ
  y : ℚ
  deriving DecidableEq, Repr

/-- `Vector2D.cpy`: copies are implicit in the functional model. -/
def Vector2D.cpy (v : Vector2D) : Vector2D := v

/-- `Vector2D.add(other)`. -/
def Vector2D.add (v w : Vector2D) : Vector2D := ⟨v.x + w.x, v.y + w.y⟩

/-- `Vector2D.sub(other)`. -/
def Vector2D.sub (v w : Vector2D) : Vector2D := ⟨v.x - w.x, v.y - w.y⟩

/-- `Vector2D.mul(scalar)` (the scalar overload). -/
def Vector2D.mul (v : Vector2D) (s : ℚ) : Vector2D := ⟨v.x * s, v.y * s⟩

/-- `Vector2D.dot(other)`. -/
def Vector2D.dot (v w : Vector2D) : ℚ := v.x * w.x + v.y * w.y

/-- `Vector2D.length2()`. -/
def Vector2D.length2 (v : Vector2D) : ℚ := v.x * v.x + v.y * v.y

/-- `Vector2D.normalize()`: divides by `Math.sqrt(length2)` unless that
length is zero, in which case it is a no-op.  `Math.sqrt` is supplied as
`sqrtFn`. -/
def Vector2D.normalizeWith (sqrtFn : ℚ → ℚ) (v : Vector2D) : Vector2D :=
  let len := sqrtFn v.length2
  if len = 0 then v else ⟨v.x / len, v.y / len⟩

/-- `BoundingBox` (src/math/Rect.ts): a rectangle given by its four edges. -/
structure BoundingBox where
  left : ℚ
  right : ℚ
  top : ℚ
  bottom : ℚ
  deriving DecidableEq, Repr

/-- `Rect` (src/math/Rect.ts): canonical representation is center + size. -/
structure Rect where
  center : Vector2D
  size : Vector2D
  deriving DecidableEq, Repr

/-- Getter `Rect.x` (left edge). -/
def Rect.x (r : Rect) : ℚ := r.center.x - r.size.x / 2

/-- Getter `Rect.y` (top edge). -/
def Rect.y (r : Rect) : ℚ := r.center.y - r.size.y / 2

/-- Getter `Rect.w`. -/
def Rect.w (r : Rect) : ℚ := r.size.x

/-- Getter `Rect.h`. -/
def Rect.h (r : Rect) : ℚ := r.size.y

/-- Getter `Rect.left`. -/
def Rect.left (r : Rect) : ℚ := r.x

/-- Getter `Rect.right`. -/
def Rect.right (r : Rect) : ℚ := r.x + r.w

/-- Getter `Rect.top`. -/
def Rect.top (r : Rect) : ℚ := r.y

/-- Getter `Rect.bottom`. -/
def Rect.bottom (r : Rect) : ℚ := r.y + r.h

/-- `Rect.fromBoundingBox`: builds the rect `{x: left, y: top, w: right-left,
h: bottom-top}`, whose stored center is `(x + w/2, y + h/2)`. -/
def Rect.fromBoundingBox (bb : BoundingBox) : Rect :=
  { center := ⟨bb.left + (bb.right - bb.left) / 2, bb.top + (bb.bottom - bb.top) / 2⟩,
    size := ⟨bb.right - bb.left, bb.bottom - bb.top⟩ }

/-- `Rect.cpy`. -/
def Rect.cpy (r : Rect) : Rect := r

/-- `Rect.move(offset)`: translates the center. -/
def Rect.move (r : Rect) (offset : Vector2D) : Rect :=
  { r with center := r.center.add offset }

/-- `Rect.inset(size)`: subtracts `size` from the rect's size twice
(once per side), keeping the center. -/
def Rect.inset (r : Rect) (s : Vector2D) : Rect :=
  { r with size := (r.size.sub s).sub s }

/-- `Rect.overlap(other)`: the intersection bounding box (possibly
degenerate when the rects are disjoint). -/
def Rect.overlap (r other : Rect) : BoundingBox :=
  { left := max r.left other.left,
    right := min r.right other.right,
    top := max r.top other.top,
    bottom := min r.bottom other.bottom }

/-- `Rect.distance(other)`: per-axis signed separation; zero on an axis where
the rects already overlap. -/
def Rect.distance (r other : Rect) : Vector2D :=
  let t := other.bottom - r.top
  let b := other.top - r.bottom
  let l := other.right - r.left
  let rg := other.left - r.right
  ⟨if l < 0 then l else if rg > 0 then rg else 0,
   if t < 0 then t else if b > 0 then b else 0⟩

/-- `AABBPhysicsProxy` (src/physics): id, outer box, velocity, static flag.
The `reference` back-pointer carries no physics state and is omitted. -/
structure AABBPhysicsProxy where
  id : ℕ
  outerBox : Rect
  velocity : Vector2D
  static : Bool
  deriving DecidableEq, Repr

/-- `AABBCollision`: per-pair record; the participants are recorded by id. -/
structure AABBCollision where
  overlap : BoundingBox
  a : ℕ
  b : ℕ
  deriving DecidableEq, Repr

/-- `AABBPhysicsEngine` state: options (world box, strategy flag) together
with the proxy array and current collision list of the `PhysicsEngine`
base class. -/
structure AABBPhysicsEngine where
  world_box : Rect
  simple_collisions : Bool
  proxies : List AABBPhysicsProxy
  collisions : List AABBCollision
  deriving DecidableEq, Repr

/-- `PhysicsEngine.add(proxy)`: pushes the proxy onto the array. -/
def AABBPhysicsEngine.add (e : AABBPhysicsEngine) (p : AABBPhysicsProxy) :
    AABBPhysicsEngine :=
  { e with proxies := e.proxies ++ [p] }

/-- `PhysicsEngine.remove(proxy | id)`, after the argument has been resolved
to a raw id: keeps exactly the proxies whose id differs. -/
def AABBPhysicsEngine.removeId (e : AABBPhysicsEngine) (proxy_id : ℕ) :
    AABBPhysicsEngine :=
  { e with proxies := e.proxies.filter (fun p => p.id != proxy_id) }

/-- `PhysicsEngine.remove(proxy)`: resolves the proxy to its id. -/
def AABBPhysicsEngine.remove (e : AABBPhysicsEngine) (p : AABBPhysicsProxy) :
    AABBPhysicsEngine :=
  e.removeId p.id

/-- `PhysicsEngine.reset()`. -/
def AABBPhysicsEngine.reset (e : AABBPhysicsEngine) : AABBPhysicsEngine :=
  { e with proxies := [], collisions := [] }

/-- `AABBPhysicsEngine.solveCollisionSimple`: separation along the dominant
axis; per non-static participant the velocity component is replaced by its
absolute value times a direction sign and the center translated by half the
penetration (full penetration when the partner is static, via the doubled
overlap size). -/
def solveCollisionSimple (overlap : BoundingBox) (a b : AABBPhysicsProxy) :
    AABBPhysicsProxy × AABBPhysicsProxy :=
  let overlap_rect0 := Rect.fromBoundingBox overlap
  if a.static && b.static then (a, b) else
  let overlap_rect :=
    if a.static || b.static then
      { overlap_rect0 with size := overlap_rect0.size.mul 2 }
    else overlap_rect0
  if overlap_rect.w < overlap_rect.h then
    -- overlap taller than wide: horizontal collision
    let a_direction : ℚ := if overlap_rect.center.x < a.outerBox.center.x then 1 else -1
    let a1 :=
      if a.static then a else
      { a with
        velocity := ⟨|a.velocity.x| * a_direction, a.velocity.y⟩,
        outerBox := { a.outerBox with
          center := ⟨a.outerBox.center.x + overlap_rect.w / 2 * a_direction,
                     a.outerBox.center.y⟩ } }
    let b_direction : ℚ := if overlap_rect.center.x < b.outerBox.center.x then 1 else -1
    let b1 :=
      if b.static then b else
      { b with
        velocity := ⟨|b.velocity.x| * b_direction, b.velocity.y⟩,
        outerBox := { b.outerBox with
          center := ⟨b.outerBox.center.x + overlap_rect.w / 2 * b_direction,
                     b.outerBox.center.y⟩ } }
    (a1, b1)
  else
    -- overlap wider than tall: vertical collision
    let a_direction : ℚ := if overlap_rect.center.y < a.outerBox.center.y then 1 else -1
    let a1 :=
      if a.static then a else
      { a with
        velocity := ⟨a.velocity.x, |a.velocity.y| * a_direction⟩,
        outerBox := { a.outerBox with
          center := ⟨a.outerBox.center.x,
                     a.outerBox.center.y + overlap_rect.h / 2 * a_direction⟩ } }
    let b_direction : ℚ := if overlap_rect.center.y < b.outerBox.center.y then 1 else -1
    let b1 :=
      if b.static then b else
      { b with
        velocity := ⟨b.velocity.x, |b.velocity.y| * b_direction⟩,
        outerBox := { b.outerBox with
          center := ⟨b.outerBox.center.x,
                     b.outerBox.center.y + overlap_rect.h / 2 * b_direction⟩ } }
    (a1, b1)

/-- `AABBPhysicsEngine.solveCollisionComplex`: mass-weighted impulse response
(mass = box area) followed by the same positional correction as the simple
strategy.  If either participant is static the source returns
`solveCollisionSimple` immediately, so the inner static re-aiming of the
impact vectors in the remaining body can never fire and is not modelled. -/
def solveCollisionComplex (sqrtFn : ℚ → ℚ) (overlap : BoundingBox)
    (a b : AABBPhysicsProxy) : AABBPhysicsProxy × AABBPhysicsProxy :=
  if a.static || b.static then solveCollisionSimple overlap a b else
  let overlap_rect := Rect.fromBoundingBox overlap
  let a_mass := a.outerBox.size.x * a.outerBox.size.y
  let b_mass := b.outerBox.size.x * b.outerBox.size.y
  let impact_vector_a := (b.outerBox.center.sub a.outerBox.center).normalizeWith sqrtFn
  let impact_vector_b := impact_vector_a.mul (-1)
  let a_force := (a.velocity.dot impact_vector_a) * a_mass
  let b_force := (b.velocity.dot impact_vector_b) * b_mass
  let impact_force := a_force + b_force
  let a1 := { a with
    velocity := (a.velocity.add (impact_vector_b.mul (impact_force / a_mass))).mul (0.999 : ℚ) }
  let b1 := { b with
    velocity := (b.velocity.add (impact_vector_a.mul (impact_force / b_mass))).mul (0.999 : ℚ) }
  if overlap_rect.w < overlap_rect.h then
    let a_direction : ℚ := if overlap_rect.center.x < a1.outerBox.center.x then 1 else -1
    let a2 := { a1 with outerBox := { a1.outerBox with
      center := ⟨a1.outerBox.center.x + overlap_rect.w / 2 * a_direction,
                 a1.outerBox.center.y⟩ } }
    let b_direction : ℚ := if overlap_rect.center.x < b1.outerBox.center.x then 1 else -1
    let b2 := { b1 with outerBox := { b1.outerBox with
      center := ⟨b1.outerBox.center.x + overlap_rect.w / 2 * b_direction,
                 b1.outerBox.center.y⟩ } }
    (a2, b2)
  else
    let a_direction : ℚ := if overlap_rect.center.y < a1.outerBox.center.y then 1 else -1
    let a2 := { a1 with outerBox := { a1.outerBox with
      center := ⟨a1.outerBox.center.x,
                 a1.outerBox.center.y + overlap_rect.h / 2 * a_direction⟩ } }
    let b_direction : ℚ := if overlap_rect.center.y < b1.outerBox.center.y then 1 else -1
    let b2 := { b1 with outerBox := { b1.outerBox with
      center := ⟨b1.outerBox.center.x,
                 b1.outerBox.center.y + overlap_rect.h / 2 * b_direction⟩ } }
    (a2, b2)

/-- `AABBPhysicsEngine.solveCollision`: strategy selection. -/
def solveCollision (sqrtFn : ℚ → ℚ) (simple : Bool) (overlap : BoundingBox)
    (a b : AABBPhysicsProxy) : AABBPhysicsProxy × AABBPhysicsProxy :=
  if simple then solveCollisionSimple overlap a b
  else solveCollisionComplex sqrtFn overlap a b

/-- The body of the two nested `forEach` loops of
`AABBPhysicsEngine.checkCollisions`, for the index pair `ij`: skip the pair
when both indices are the same proxy; otherwise, if the overlap of the two
(current) boxes is a real rectangle, solve the collision (mutating the two
proxies in place) and append the collision record. -/
def pairStep (sqrtFn : ℚ → ℚ) (simple : Bool)
    (st : List AABBPhysicsProxy × List AABBCollision) (ij : ℕ × ℕ) :
    List AABBPhysicsProxy × List AABBCollision :=
  if hij : ij.1 ≠ ij.2 ∧ ij.1 < st.1.length ∧ ij.2 < st.1.length then
    let p := st.1.get ⟨ij.1, hij.2.1⟩
    let q := st.1.get ⟨ij.2, hij.2.2⟩
    let ov := p.outerBox.overlap q.outerBox
    if ov.top < ov.bottom ∧ ov.left < ov.right then
      let r := solveCollision sqrtFn simple ov p q
      ((st.1.set ij.1 r.1).set ij.2 r.2, st.2 ++ [⟨ov, p.id, q.id⟩])
    else st
  else st

/-- All index pairs visited by the two nested `forEach` loops, in visit
order. -/
def allPairs (n : ℕ) : List (ℕ × ℕ) :=
  ((List.range n).map (fun i => (List.range n).map (fun j => (i, j)))).flatten

/-- `AABBPhysicsEngine.checkCollisions`: clears the collision list, then runs
the nested all-pairs scan, resolving and recording as it goes. -/
def AABBPhysicsEngine.checkCollisions (sqrtFn : ℚ → ℚ) (e : AABBPhysicsEngine) :
    AABBPhysicsEngine :=
  let st := (allPairs e.proxies.length).foldl (pairStep sqrtFn e.simple_collisions)
    (e.proxies, [])
  { e with proxies := st.1, collisions := st.2 }

/-- The world-containment correction applied to one proxy by
`AABBPhysicsEngine.handleWorldCollisions` (later revision): on each axis with
non-zero signed distance from the inset world box, point the velocity
component back inside (magnitude unchanged) and translate the center back by
exactly that distance. -/
def handleWorldProxy (world : Rect) (p : AABBPhysicsProxy) : AABBPhysicsProxy :=
  let area_of_freedom := (world.cpy).inset p.outerBox.size
  let distance := area_of_freedom.distance p.outerBox
  let p1 :=
    if 0 < |distance.x| then
      { p with
        velocity := ⟨|p.velocity.x| * (if 0 < distance.x then -1 else 1), p.velocity.y⟩,
        outerBox := { p.outerBox with
          center := ⟨p.outerBox.center.x - distance.x, p.outerBox.center.y⟩ } }
    else p
  if 0 < |distance.y| then
    { p1 with
      velocity := ⟨p1.velocity.x, |p1.velocity.y| * (if 0 < distance.y then -1 else 1)⟩,
      outerBox := { p1.outerBox with
        center := ⟨p1.outerBox.center.x, p1.outerBox.center.y - distance.y⟩ } }
  else p1

/-- `AABBPhysicsEngine.handleWorldCollisions` (later revision): applies the
containment correction to every proxy.  The source's commented-out static
skip is absent, so static proxies are corrected too. -/
def AABBPhysicsEngine.handleWorldCollisions (e : AABBPhysicsEngine) :
    AABBPhysicsEngine :=
  { e with proxies := e.proxies.map (handleWorldProxy e.world_box) }

/-- The superseded earlier revision of the per-proxy world correction
(src/physics/AABBPhysicsEngine.ts): identical except that the center is
translated back by twice the measured distance. -/
def handleWorldProxyDouble (world : Rect) (p : AABBPhysicsProxy) : AABBPhysicsProxy :=
  let area_of_freedom := (world.cpy).inset p.outerBox.size
  let distance := area_of_freedom.distance p.outerBox
  let p1 :=
    if 0 < |distance.x| then
      { p with
        velocity := ⟨|p.velocity.x| * (if 0 < distance.x then -1 else 1), p.velocity.y⟩,
        outerBox := { p.outerBox with
          center := ⟨p.outerBox.center.x - distance.x * 2, p.outerBox.center.y⟩ } }
    else p
  if 0 < |distance.y| then
    { p1 with
      velocity := ⟨p1.velocity.x, |p1.velocity.y| * (if 0 < distance.y then -1 else 1)⟩,
      outerBox := { p1.outerBox with
        center := ⟨p1.outerBox.center.x, p1.outerBox.center.y - distance.y * 2⟩ } }
  else p1

/-- The integration step of `update` for one proxy:
`outerBox.move(velocity.cpy().mul(delta_seconds))`. -/
def integrate (delta_seconds : ℚ) (p : AABBPhysicsProxy) : AABBPhysicsProxy :=
  { p with outerBox := p.outerBox.move ((p.velocity.cpy).mul delta_seconds) }

/-- `AABBPhysicsEngine.update(delta_seconds)`: the source immediately
overwrites the argument with the fixed step `0.016` ("60 FPS"), then
integrates every proxy, runs collision detection/resolution, and finally the
world containment pass. -/
def AABBPhysicsEngine.update (sqrtFn : ℚ → ℚ) (delta_seconds : ℚ)
    (e : AABBPhysicsEngine) : AABBPhysicsEngine :=
  let ds : ℚ := 0.016
  let e1 := { e with proxies := e.proxies.map (integrate ds) }
  (e1.checkCollisions sqrtFn).handleWorldCollisions

/-- Strictly positive overlap on both axes: the detection predicate
`overlap.bottom > overlap.top && overlap.right > overlap.left`. -/
abbrev collides (r s : Rect) : Prop :=
  (r.overlap s).top < (r.overlap s).bottom ∧ (r.overlap s).left < (r.overlap s).right

/-- A concrete stand-in for `Math.sqrt` in closed statements that never rely
on square-root values. -/
def sqrtFn0 : ℚ → ℚ := fun _ => 0

/-- A concrete stand-in for `Math.sqrt` correct at the input `64` (the only
input used by the statements that mention it). -/
def sqrtFn64 : ℚ → ℚ := fun q => if q = 64 then 8 else 0

/-- Engine used to witness C10. -/
def engC10 : AABBPhysicsEngine :=
  { world_box := ⟨⟨50, 50⟩, ⟨100, 100⟩⟩, simple_collisions := true,
    proxies := [⟨1, ⟨⟨10, 10⟩, ⟨4, 4⟩⟩, ⟨0, 0⟩, false⟩,
                ⟨2, ⟨⟨30, 30⟩, ⟨4, 4⟩⟩, ⟨0, 0⟩, false⟩],
    collisions := [] }

/-- Engine used in the C3 counterexample: a single proxy well inside a large
world, moving with velocity `(60, 0)`. -/
def engC3 : AABBPhysicsEngine :=
  { world_box := ⟨⟨500, 500⟩, ⟨1000, 1000⟩⟩, simple_collisions := true,
    proxies := [⟨1, ⟨⟨500, 500⟩, ⟨10, 10⟩⟩, ⟨60, 0⟩, false⟩],
    collisions := [] }

/-- Engine used in the C4 counterexample: a single *static* proxy with
non-zero velocity, well inside a large world. -/
def engC4 : AABBPhysicsEngine :=
  { world_box := ⟨⟨500, 500⟩, ⟨1000, 1000⟩⟩, simple_collisions := true,
    proxies := [⟨1, ⟨⟨500, 500⟩, ⟨10, 10⟩⟩, ⟨1, 0⟩, true⟩],
    collisions := [] }

/-- The overlap bounding box of the outer boxes of two proxies, as computed
during detection. -/
def pairOverlap (a b : AABBPhysicsProxy) : BoundingBox :=
  a.outerBox.overlap b.outerBox

/-- The result of running the simple resolver on a pair, fed with the
overlap of their boxes, as `handleCollision` does. -/
def simpleResolved (a b : AABBPhysicsProxy) : AABBPhysicsProxy × AABBPhysicsProxy :=
  solveCollisionSimple (pairOverlap a b) a b

/-- The result of running the mass-weighted resolver on a pair, fed with the
overlap of their boxes, as `handleCollision` does. -/
def complexResolved (sqrtFn : ℚ → ℚ) (a b : AABBPhysicsProxy) :
    AABBPhysicsProxy × AABBPhysicsProxy :=
  solveCollisionComplex sqrtFn (pairOverlap a b) a b

/-- C1 counterexample data: a thin tall box ... -/
def aC1 : AABBPhysicsProxy := ⟨1, ⟨⟨0, 0⟩, ⟨2, 10⟩⟩, ⟨0, 0⟩, false⟩

/-- C1 counterexample data: a wide box whose x-extent contains the thin
box's x-extent, with its center left of the overlap center. -/
def bC1 : AABBPhysicsProxy := ⟨2, ⟨⟨-0.5, 0⟩, ⟨10, 10⟩⟩, ⟨0, 0⟩, false⟩

/-- C1 witness data: left box of an ordinary penetrating pair. -/
def aC1w : AABBPhysicsProxy := ⟨1, ⟨⟨0, 0⟩, ⟨10, 10⟩⟩, ⟨1, 0⟩, false⟩

/-- C1 witness data: right box of an ordinary penetrating pair. -/
def bC1w : AABBPhysicsProxy := ⟨2, ⟨⟨8, 0⟩, ⟨10, 10⟩⟩, ⟨-1, 0⟩, false⟩

/-- C1 witness data: a static copy of the left box, to exercise the
static/dynamic full-depth push. -/
def aC1s : AABBPhysicsProxy := ⟨3, ⟨⟨0, 0⟩, ⟨10, 10⟩⟩, ⟨0, 0⟩, true⟩

/-- C5 data: a moving proxy whose center coincides with its partner's. -/
def aC5 : AABBPhysicsProxy := ⟨1, ⟨⟨0, 0⟩, ⟨2, 10⟩⟩, ⟨5, 0⟩, false⟩

/-- C5 data: the partner proxy, same center. -/
def bC5 : AABBPhysicsProxy := ⟨2, ⟨⟨0, 0⟩, ⟨10, 10⟩⟩, ⟨0, 0⟩, false⟩

/-- C7 data: upper 10×10 box of a vertically stacked pair (its partner sits
8 below, so the overlap is 10 wide and 2 tall). -/
def aC7 (ia : ℕ) (cx acy avx avy : ℚ) : AABBPhysicsProxy :=
  ⟨ia, ⟨⟨cx, acy⟩, ⟨10, 10⟩⟩, ⟨avx, avy⟩, false⟩

/-- C7 data: lower 10×10 box of the stacked pair. -/
def bC7 (ib : ℕ) (cx acy bvx bvy : ℚ) : AABBPhysicsProxy :=
  ⟨ib, ⟨⟨cx, acy + 8⟩, ⟨10, 10⟩⟩, ⟨bvx, bvy⟩, false⟩

/-- C6 witness data: a genuinely overlapping proxy. -/
def pC6a : AABBPhysicsProxy := ⟨1, ⟨⟨0, 0⟩, ⟨10, 10⟩⟩, ⟨0, 0⟩, false⟩

/-- C6 witness data: its partner, overlapping by 2 in x. -/
def pC6b : AABBPhysicsProxy := ⟨2, ⟨⟨8, 0⟩, ⟨10, 10⟩⟩, ⟨0, 0⟩, false⟩

/-- C6 witness data: an engine with two disjoint proxies. -/
def engC6 : AABBPhysicsEngine :=
  { world_box := ⟨⟨50, 50⟩, ⟨100, 100⟩⟩, simple_collisions := true,
    proxies := [⟨1, ⟨⟨10, 10⟩, ⟨4, 4⟩⟩, ⟨0, 0⟩, false⟩,
                ⟨2, ⟨⟨30, 30⟩, ⟨4, 4⟩⟩, ⟨0, 0⟩, false⟩],
    collisions := [] }

/-- C9 witness data: a quiescent engine: one motionless proxy whose box
touches the inset legal region with zero distance. -/
def engC9 : AABBPhysicsEngine :=
  { world_box := ⟨⟨50, 50⟩, ⟨100, 100⟩⟩, simple_collisions := false,
    proxies := [⟨1, ⟨⟨50, 50⟩, ⟨10, 10⟩⟩, ⟨0, 0⟩, false⟩],
    collisions := [⟨⟨0, 1, 0, 1⟩, 7, 8⟩] }

/-- Per-index preservation of the absolute value of both velocity
components, relating a proxy list to the original list. -/
def absVelPreserved (orig ps : List AABBPhysicsProxy) : Prop :=
  ps.length = orig.length ∧
  ∀ (k : ℕ) (hk : k < ps.length) (hk2 : k < orig.length),
    |(ps.get ⟨k, hk⟩).velocity.x| = |(orig.get ⟨k, hk2⟩).velocity.x| ∧
    |(ps.get ⟨k, hk⟩).velocity.y| = |(orig.get ⟨k, hk2⟩).velocity.y|

/-- C8 witness data: a simple-strategy engine with a colliding pair and a
proxy pressed against the world boundary. -/
def engC8 : AABBPhysicsEngine :=
  { world_box := ⟨⟨50, 50⟩, ⟨100, 100⟩⟩, simple_collisions := true,
    proxies := [⟨1, ⟨⟨20, 20⟩, ⟨10, 10⟩⟩, ⟨3, -4⟩, false⟩,
                ⟨2, ⟨⟨28, 20⟩, ⟨10, 10⟩⟩, ⟨-2, 5⟩, false⟩,
                ⟨3, ⟨⟨2, 50⟩, ⟨10, 10⟩⟩, ⟨-7, 1⟩, false⟩],
    collisions := [] }


/-! ## Basic lemmas -/

@[simp] lemma vector_cpy_id (v : Vector2D) : v.cpy = v := rfl

@[simp] lemma rect_cpy_id (r : Rect) : r.cpy = r := rfl

lemma Rect.overlap_comm (r s : Rect) : r.overlap s = s.overlap r := by
  simp [Rect.overlap, max_comm, min_comm]

/-! ## Claim C10: `remove` semantics -/


/-- C10: `remove` deletes every tracked entry whose id equals the given
proxy's id (so registering the same proxy twice and removing it once deletes
both copies); removing an id that no tracked proxy has leaves the engine
unchanged; `remove(proxy)` is removal by the proxy's id. -/
theorem claim_C10_remove (e e2 : AABBPhysicsEngine) (pid pid2 : ℕ)
    (p q : AABBPhysicsProxy) (habs : ∀ r ∈ e2.proxies, r.id ≠ pid2) :
    (q ∈ (e.removeId pid).proxies ↔ q ∈ e.proxies ∧ q.id ≠ pid) ∧
    (((e.add p).add p).removeId p.id = e.removeId p.id) ∧
    (e2.removeId pid2 = e2) ∧
    (e.remove p = e.removeId p.id) := by
  refine ⟨?_, ?_, ?_, rfl⟩
  · simp [AABBPhysicsEngine.removeId, List.mem_filter]
  · simp [AABBPhysicsEngine.removeId, AABBPhysicsEngine.add, List.filter_append]
  · have h : e2.proxies.filter (fun r => r.id != pid2) = e2.proxies := by
      rw [List.filter_eq_self]
      intro a ha
      simpa using habs a ha
    simp [AABBPhysicsEngine.removeId, h]

/-- Witness for C10 at a concrete engine. -/
theorem claim_C10_remove_witness :
    ((⟨3, ⟨⟨10, 10⟩, ⟨4, 4⟩⟩, ⟨0, 0⟩, false⟩ ∈
        (engC10.removeId 1).proxies ↔
      (⟨3, ⟨⟨10, 10⟩, ⟨4, 4⟩⟩, ⟨0, 0⟩, false⟩ : AABBPhysicsProxy) ∈ engC10.proxies ∧
        (3 : ℕ) ≠ 1)) ∧
    (((engC10.add ⟨3, ⟨⟨10, 10⟩, ⟨4, 4⟩⟩, ⟨0, 0⟩, false⟩).add
        ⟨3, ⟨⟨10, 10⟩, ⟨4, 4⟩⟩, ⟨0, 0⟩, false⟩).removeId 3 = engC10.removeId 3) ∧
    (engC10.removeId 7 = engC10) ∧
    (engC10.remove ⟨3, ⟨⟨10, 10⟩, ⟨4, 4⟩⟩, ⟨0, 0⟩, false⟩ = engC10.removeId 3) :=
  claim_C10_remove engC10 engC10 1 7 ⟨3, ⟨⟨10, 10⟩, ⟨4, 4⟩⟩, ⟨0, 0⟩, false⟩
    ⟨3, ⟨⟨10, 10⟩, ⟨4, 4⟩⟩, ⟨0, 0⟩, false⟩ (by decide)

/-! ## Claim C3: fixed timestep -/


/-- C3 (counterexample): with velocity `(60, 0)` one `update` advances the
center by `0.96`, not by `60 * (1/60) = 1`: the fixed step is `0.016`, which
is not exactly `1/60` of a second. -/
theorem claim_C3_counterexample :
    ((engC3.update sqrtFn0 1).proxies.map fun p => p.outerBox.center.x) = [500.96] ∧
    (500.96 : ℚ) ≠ 500 + 60 * (1 / 60) := by
  constructor
  · norm_num [AABBPhysicsEngine.update, AABBPhysicsEngine.checkCollisions,
      AABBPhysicsEngine.handleWorldCollisions, engC3, integrate, allPairs,
      pairStep, handleWorldProxy, Rect.move, Rect.inset, Rect.distance,
      Rect.left, Rect.right, Rect.top, Rect.bottom, Rect.x, Rect.y, Rect.w,
      Rect.h, Vector2D.add, Vector2D.sub, Vector2D.mul, List.range_succ]
  · norm_num

/-- C3 (amended): `update` ignores its `delta_seconds` argument entirely and
integrates with the fixed step `0.016` (the source's "60 FPS" constant,
which is not exactly 1/60 s): each proxy's center advances by
`velocity * 0.016` in the integration phase. -/
theorem claim_C3_fixed_step :
    (∀ (sqrtFn : ℚ → ℚ) (d1 d2 : ℚ) (e : AABBPhysicsEngine),
      e.update sqrtFn d1 = e.update sqrtFn d2) ∧
    (∀ (sqrtFn : ℚ → ℚ) (d : ℚ) (e : AABBPhysicsEngine),
      e.update sqrtFn d =
        ({ e with proxies := e.proxies.map (integrate 0.016)
          }.checkCollisions sqrtFn).handleWorldCollisions) ∧
    (∀ (d : ℚ) (p : AABBPhysicsProxy),
      (integrate d p).outerBox.center = p.outerBox.center.add (p.velocity.mul d)) :=
  ⟨fun _ _ _ _ => rfl, fun _ _ _ => rfl, fun _ _ => rfl⟩

/-! ## Claim C4: static proxies -/


/-- C4 (counterexample): the integration phase does not skip static proxies,
so one `update` moves a static proxy with velocity `(1, 0)` by `0.016`. -/
theorem claim_C4_counterexample :
    ((engC4.update sqrtFn0 1).proxies.map fun p => (p.outerBox.center.x, p.static))
      = [(500.016, true)] ∧ (500.016 : ℚ) ≠ 500 := by
  constructor
  · norm_num [AABBPhysicsEngine.update, AABBPhysicsEngine.checkCollisions,
      AABBPhysicsEngine.handleWorldCollisions, engC4, integrate, allPairs,
      pairStep, handleWorldProxy, Rect.move, Rect.inset, Rect.distance,
      Rect.left, Rect.right, Rect.top, Rect.bottom, Rect.x, Rect.y, Rect.w,
      Rect.h, Vector2D.add, Vector2D.sub, Vector2D.mul, List.range_succ]
  · norm_num

/-- C4 (amended): neither collision-resolution strategy ever changes a static
participant's box or velocity (it is returned unchanged), whatever the other
participant, overlap and strategy; the integration and world-containment
phases, however, do not exempt static proxies (see the counterexample). -/
theorem claim_C4_static_untouched_by_resolution (sqrtFn : ℚ → ℚ)
    (ov : BoundingBox) (a b : AABBPhysicsProxy) :
    (a.static = true →
      (solveCollisionSimple ov a b).1 = a ∧ (solveCollisionComplex sqrtFn ov a b).1 = a) ∧
    (b.static = true →
      (solveCollisionSimple ov a b).2 = b ∧ (solveCollisionComplex sqrtFn ov a b).2 = b) := by
  constructor
  · intro ha
    have hs : (solveCollisionSimple ov a b).1 = a := by
      simp only [solveCollisionSimple, ha]
      split_ifs <;> simp
    refine ⟨hs, ?_⟩
    simp only [solveCollisionComplex, ha, Bool.true_or, if_true, hs]
  · intro hb
    have hs : (solveCollisionSimple ov a b).2 = b := by
      simp only [solveCollisionSimple, hb]
      split_ifs <;> simp
    refine ⟨hs, ?_⟩
    simp only [solveCollisionComplex, hb, Bool.or_true, if_true, hs]

/-- Witness for C4 at a concrete static/dynamic pair. -/
theorem claim_C4_witness :
    (solveCollisionSimple ⟨0, 2, 0, 10⟩ ⟨1, ⟨⟨0, 5⟩, ⟨4, 10⟩⟩, ⟨3, 0⟩, true⟩
        ⟨2, ⟨⟨1, 5⟩, ⟨4, 10⟩⟩, ⟨-3, 0⟩, false⟩).1
      = ⟨1, ⟨⟨0, 5⟩, ⟨4, 10⟩⟩, ⟨3, 0⟩, true⟩ ∧
    (solveCollisionComplex sqrtFn0 ⟨0, 2, 0, 10⟩ ⟨1, ⟨⟨0, 5⟩, ⟨4, 10⟩⟩, ⟨3, 0⟩, true⟩
        ⟨2, ⟨⟨1, 5⟩, ⟨4, 10⟩⟩, ⟨-3, 0⟩, false⟩).1
      = ⟨1, ⟨⟨0, 5⟩, ⟨4, 10⟩⟩, ⟨3, 0⟩, true⟩ :=
  (claim_C4_static_untouched_by_resolution sqrtFn0 ⟨0, 2, 0, 10⟩
    ⟨1, ⟨⟨0, 5⟩, ⟨4, 10⟩⟩, ⟨3, 0⟩, true⟩ ⟨2, ⟨⟨1, 5⟩, ⟨4, 10⟩⟩, ⟨-3, 0⟩, false⟩).1 rfl

/-! ## Claim C2: world containment corrects by exactly the signed distance -/

/-- Closed form of the per-proxy world-containment correction, with the
measured distance abstracted as `(dx, dy)`. -/
lemma handleWorldProxy_closed_form (world : Rect) (p : AABBPhysicsProxy) (dx dy : ℚ)
    (hD : ((world.cpy).inset p.outerBox.size).distance p.outerBox = ⟨dx, dy⟩) :
    handleWorldProxy world p =
      { p with
        velocity :=
          ⟨if dx = 0 then p.velocity.x else
             |p.velocity.x| * (if 0 < dx then -1 else 1),
           if dy = 0 then p.velocity.y else
             |p.velocity.y| * (if 0 < dy then -1 else 1)⟩,
        outerBox := { p.outerBox with
          center := ⟨p.outerBox.center.x - dx, p.outerBox.center.y - dy⟩ } } := by
  obtain ⟨i, ⟨⟨cx, cy⟩, sz⟩, ⟨vx, vy⟩, st⟩ := p
  simp only [rect_cpy_id] at hD
  simp only [handleWorldProxy, rect_cpy_id]
  simp only [hD]
  by_cases hx : dx = 0 <;> by_cases hy : dy = 0 <;>
    simp [hx, hy, abs_pos, sub_zero]

/-- C2: in the world-containment step each proxy is corrected independently;
on every axis the center is translated back by exactly the signed distance
from the legal region (the world box inset by the proxy's box size) to the
proxy's box — a single correction — and on each axis with non-zero distance
the velocity component is replaced by its magnitude pointed back inside. -/
theorem claim_C2_world_containment :
    (∀ e : AABBPhysicsEngine,
      e.handleWorldCollisions.proxies = e.proxies.map (handleWorldProxy e.world_box)) ∧
    (∀ (world : Rect) (p : AABBPhysicsProxy),
      handleWorldProxy world p =
        (let d := ((world.cpy).inset p.outerBox.size).distance p.outerBox
        { p with
          velocity :=
            ⟨if d.x = 0 then p.velocity.x else
               |p.velocity.x| * (if 0 < d.x then -1 else 1),
             if d.y = 0 then p.velocity.y else
               |p.velocity.y| * (if 0 < d.y then -1 else 1)⟩,
          outerBox := { p.outerBox with
            center := ⟨p.outerBox.center.x - d.x, p.outerBox.center.y - d.y⟩ } })) := by
  refine ⟨fun _ => rfl, fun world p => ?_⟩
  exact handleWorldProxy_closed_form world p _ _ rfl

/-! ## Claim C1: separation along the dominant axis -/

/-- Horizontal separation, `a` strictly to the left of `b`: the simple
resolver closes the x-overlap exactly. -/
lemma simple_sep_horiz (ia ib : ℕ) (acx acy asx asy bcx bcy bsx bsy : ℚ)
    (av bv : Vector2D)
    (h1 : acx - asx / 2 < bcx - bsx / 2)
    (h2 : acx - asx / 2 + asx < bcx - bsx / 2 + bsx)
    (hpos : bcx - bsx / 2 < acx - asx / 2 + asx)
    (hdom : acx - asx / 2 + asx - (bcx - bsx / 2) <
        min (acy - asy / 2 + asy) (bcy - bsy / 2 + bsy) -
          max (acy - asy / 2) (bcy - bsy / 2)) :
    (pairOverlap
        (simpleResolved ⟨ia, ⟨⟨acx, acy⟩, ⟨asx, asy⟩⟩, av, false⟩
          ⟨ib, ⟨⟨bcx, bcy⟩, ⟨bsx, bsy⟩⟩, bv, false⟩).1
        (simpleResolved ⟨ia, ⟨⟨acx, acy⟩, ⟨asx, asy⟩⟩, av, false⟩
          ⟨ib, ⟨⟨bcx, bcy⟩, ⟨bsx, bsy⟩⟩, bv, false⟩).2).right =
    (pairOverlap
        (simpleResolved ⟨ia, ⟨⟨acx, acy⟩, ⟨asx, asy⟩⟩, av, false⟩
          ⟨ib, ⟨⟨bcx, bcy⟩, ⟨bsx, bsy⟩⟩, bv, false⟩).1
        (simpleResolved ⟨ia, ⟨⟨acx, acy⟩, ⟨asx, asy⟩⟩, av, false⟩
          ⟨ib, ⟨⟨bcx, bcy⟩, ⟨bsx, bsy⟩⟩, bv, false⟩).2).left := by
  have hm1 : max (acx - asx / 2) (bcx - bsx / 2) = bcx - bsx / 2 := max_eq_right h1.le
  have hm2 : min (acx - asx / 2 + asx) (bcx - bsx / 2 + bsx) = acx - asx / 2 + asx :=
    min_eq_left h2.le
  norm_num [simpleResolved, pairOverlap, solveCollisionSimple, Rect.overlap,
    Rect.fromBoundingBox, Rect.left, Rect.right, Rect.top, Rect.bottom,
    Rect.x, Rect.y, Rect.w, Rect.h, Vector2D.mul, hm1, hm2]
  split_ifs with c1 c2 c3 <;>
    first
      | (exfalso; linarith)
      | (rw [min_eq_left (by linarith), max_eq_right (by linarith)]; ring)

/-- Vertical separation, `a` strictly above `b`: the simple resolver closes
the y-overlap exactly. -/
lemma simple_sep_vert (ia ib : ℕ) (acx acy asx asy bcx bcy bsx bsy : ℚ)
    (av bv : Vector2D)
    (h1 : acy - asy / 2 < bcy - bsy / 2)
    (h2 : acy - asy / 2 + asy < bcy - bsy / 2 + bsy)
    (hpos : bcy - bsy / 2 < acy - asy / 2 + asy)
    (hdom : acy - asy / 2 + asy - (bcy - bsy / 2) ≤
        min (acx - asx / 2 + asx) (bcx - bsx / 2 + bsx) -
          max (acx - asx / 2) (bcx - bsx / 2)) :
    (pairOverlap
        (simpleResolved ⟨ia, ⟨⟨acx, acy⟩, ⟨asx, asy⟩⟩, av, false⟩
          ⟨ib, ⟨⟨bcx, bcy⟩, ⟨bsx, bsy⟩⟩, bv, false⟩).1
        (simpleResolved ⟨ia, ⟨⟨acx, acy⟩, ⟨asx, asy⟩⟩, av, false⟩
          ⟨ib, ⟨⟨bcx, bcy⟩, ⟨bsx, bsy⟩⟩, bv, false⟩).2).bottom =
    (pairOverlap
        (simpleResolved ⟨ia, ⟨⟨acx, acy⟩, ⟨asx, asy⟩⟩, av, false⟩
          ⟨ib, ⟨⟨bcx, bcy⟩, ⟨bsx, bsy⟩⟩, bv, false⟩).1
        (simpleResolved ⟨ia, ⟨⟨acx, acy⟩, ⟨asx, asy⟩⟩, av, false⟩
          ⟨ib, ⟨⟨bcx, bcy⟩, ⟨bsx, bsy⟩⟩, bv, false⟩).2).top := by
  have hm1 : max (acy - asy / 2) (bcy - bsy / 2) = bcy - bsy / 2 := max_eq_right h1.le
  have hm2 : min (acy - asy / 2 + asy) (bcy - bsy / 2 + bsy) = acy - asy / 2 + asy :=
    min_eq_left h2.le
  norm_num [simpleResolved, pairOverlap, solveCollisionSimple, Rect.overlap,
    Rect.fromBoundingBox, Rect.left, Rect.right, Rect.top, Rect.bottom,
    Rect.x, Rect.y, Rect.w, Rect.h, Vector2D.mul, hm1, hm2]
  split_ifs with c1 c2 c3 <;>
    first
      | (exfalso; linarith)
      | (rw [min_eq_left (by linarith), max_eq_right (by linarith)]; ring)

/-- The simple resolver is symmetric in its two participants. -/
lemma solveCollisionSimple_swap (ov : BoundingBox) (a b : AABBPhysicsProxy) :
    solveCollisionSimple ov b a =
      ((solveCollisionSimple ov a b).2, (solveCollisionSimple ov a b).1) := by
  simp only [solveCollisionSimple, Bool.and_comm, Bool.or_comm]
  split_ifs <;> rfl

/-- Detection overlap is symmetric in the two participants. -/
lemma pairOverlap_comm (x y : AABBPhysicsProxy) : pairOverlap x y = pairOverlap y x := by
  simp [pairOverlap, Rect.overlap_comm]

/-- Horizontal separation with `a` static and strictly left of dynamic `b`:
the doubled overlap makes `b` absorb the full penetration, closing the
x-overlap exactly. -/
lemma simple_sep_horiz_astatic_left (ia ib : ℕ)
    (acx acy asx asy bcx bcy bsx bsy : ℚ) (av bv : Vector2D)
    (h1 : acx - asx / 2 < bcx - bsx / 2)
    (h2 : acx - asx / 2 + asx < bcx - bsx / 2 + bsx)
    (hpos : bcx - bsx / 2 < acx - asx / 2 + asx)
    (hdom : acx - asx / 2 + asx - (bcx - bsx / 2) <
        min (acy - asy / 2 + asy) (bcy - bsy / 2 + bsy) -
          max (acy - asy / 2) (bcy - bsy / 2)) :
    (pairOverlap
        (simpleResolved ⟨ia, ⟨⟨acx, acy⟩, ⟨asx, asy⟩⟩, av, true⟩
          ⟨ib, ⟨⟨bcx, bcy⟩, ⟨bsx, bsy⟩⟩, bv, false⟩).1
        (simpleResolved ⟨ia, ⟨⟨acx, acy⟩, ⟨asx, asy⟩⟩, av, true⟩
          ⟨ib, ⟨⟨bcx, bcy⟩, ⟨bsx, bsy⟩⟩, bv, false⟩).2).right =
    (pairOverlap
        (simpleResolved ⟨ia, ⟨⟨acx, acy⟩, ⟨asx, asy⟩⟩, av, true⟩
          ⟨ib, ⟨⟨bcx, bcy⟩, ⟨bsx, bsy⟩⟩, bv, false⟩).1
        (simpleResolved ⟨ia, ⟨⟨acx, acy⟩, ⟨asx, asy⟩⟩, av, true⟩
          ⟨ib, ⟨⟨bcx, bcy⟩, ⟨bsx, bsy⟩⟩, bv, false⟩).2).left := by
  have hm1 : max (acx - asx / 2) (bcx - bsx / 2) = bcx - bsx / 2 := max_eq_right h1.le
  have hm2 : min (acx - asx / 2 + asx) (bcx - bsx / 2 + bsx) = acx - asx / 2 + asx :=
    min_eq_left h2.le
  norm_num [simpleResolved, pairOverlap, solveCollisionSimple, Rect.overlap,
    Rect.fromBoundingBox, Rect.left, Rect.right, Rect.top, Rect.bottom,
    Rect.x, Rect.y, Rect.w, Rect.h, Vector2D.mul, hm1, hm2]
  split_ifs <;>
    first
      | (exfalso; linarith)
      | (rw [min_eq_left (by linarith), max_eq_right (by linarith)]; ring)
      | (rw [min_eq_right (by linarith), max_eq_left (by linarith)]; ring)

/-- Horizontal separation with `a` static and dynamic `b` strictly left of
it: `b` absorbs the full penetration leftwards, closing the x-overlap
exactly. -/
lemma simple_sep_horiz_astatic_right (ia ib : ℕ)
    (acx acy asx asy bcx bcy bsx bsy : ℚ) (av bv : Vector2D)
    (h1 : bcx - bsx / 2 < acx - asx / 2)
    (h2 : bcx - bsx / 2 + bsx < acx - asx / 2 + asx)
    (hpos : acx - asx / 2 < bcx - bsx / 2 + bsx)
    (hdom : bcx - bsx / 2 + bsx - (acx - asx / 2) <
        min (acy - asy / 2 + asy) (bcy - bsy / 2 + bsy) -
          max (acy - asy / 2) (bcy - bsy / 2)) :
    (pairOverlap
        (simpleResolved ⟨ia, ⟨⟨acx, acy⟩, ⟨asx, asy⟩⟩, av, true⟩
          ⟨ib, ⟨⟨bcx, bcy⟩, ⟨bsx, bsy⟩⟩, bv, false⟩).1
        (simpleResolved ⟨ia, ⟨⟨acx, acy⟩, ⟨asx, asy⟩⟩, av, true⟩
          ⟨ib, ⟨⟨bcx, bcy⟩, ⟨bsx, bsy⟩⟩, bv, false⟩).2).right =
    (pairOverlap
        (simpleResolved ⟨ia, ⟨⟨acx, acy⟩, ⟨asx, asy⟩⟩, av, true⟩
          ⟨ib, ⟨⟨bcx, bcy⟩, ⟨bsx, bsy⟩⟩, bv, false⟩).1
        (simpleResolved ⟨ia, ⟨⟨acx, acy⟩, ⟨asx, asy⟩⟩, av, true⟩
          ⟨ib, ⟨⟨bcx, bcy⟩, ⟨bsx, bsy⟩⟩, bv, false⟩).2).left := by
  have hm1 : max (acx - asx / 2) (bcx - bsx / 2) = acx - asx / 2 := max_eq_left h1.le
  have hm2 : min (acx - asx / 2 + asx) (bcx - bsx / 2 + bsx) = bcx - bsx / 2 + bsx :=
    min_eq_right h2.le
  norm_num [simpleResolved, pairOverlap, solveCollisionSimple, Rect.overlap,
    Rect.fromBoundingBox, Rect.left, Rect.right, Rect.top, Rect.bottom,
    Rect.x, Rect.y, Rect.w, Rect.h, Vector2D.mul, hm1, hm2]
  split_ifs <;>
    first
      | (exfalso; linarith)
      | (rw [min_eq_left (by linarith), max_eq_right (by linarith)]; ring)
      | (rw [min_eq_right (by linarith), max_eq_left (by linarith)]; ring)

/-- Vertical separation with `a` static and strictly above dynamic `b`. -/
lemma simple_sep_vert_astatic_top (ia ib : ℕ)
    (acx acy asx asy bcx bcy bsx bsy : ℚ) (av bv : Vector2D)
    (h1 : acy - asy / 2 < bcy - bsy / 2)
    (h2 : acy - asy / 2 + asy < bcy - bsy / 2 + bsy)
    (hpos : bcy - bsy / 2 < acy - asy / 2 + asy)
    (hdom : acy - asy / 2 + asy - (bcy - bsy / 2) ≤
        min (acx - asx / 2 + asx) (bcx - bsx / 2 + bsx) -
          max (acx - asx / 2) (bcx - bsx / 2)) :
    (pairOverlap
        (simpleResolved ⟨ia, ⟨⟨acx, acy⟩, ⟨asx, asy⟩⟩, av, true⟩
          ⟨ib, ⟨⟨bcx, bcy⟩, ⟨bsx, bsy⟩⟩, bv, false⟩).1
        (simpleResolved ⟨ia, ⟨⟨acx, acy⟩, ⟨asx, asy⟩⟩, av, true⟩
          ⟨ib, ⟨⟨bcx, bcy⟩, ⟨bsx, bsy⟩⟩, bv, false⟩).2).bottom =
    (pairOverlap
        (simpleResolved ⟨ia, ⟨⟨acx, acy⟩, ⟨asx, asy⟩⟩, av, true⟩
          ⟨ib, ⟨⟨bcx, bcy⟩, ⟨bsx, bsy⟩⟩, bv, false⟩).1
        (simpleResolved ⟨ia, ⟨⟨acx, acy⟩, ⟨asx, asy⟩⟩, av, true⟩
          ⟨ib, ⟨⟨bcx, bcy⟩, ⟨bsx, bsy⟩⟩, bv, false⟩).2).top := by
  have hm1 : max (acy - asy / 2) (bcy - bsy / 2) = bcy - bsy / 2 := max_eq_right h1.le
  have hm2 : min (acy - asy / 2 + asy) (bcy - bsy / 2 + bsy) = acy - asy / 2 + asy :=
    min_eq_left h2.le
  norm_num [simpleResolved, pairOverlap, solveCollisionSimple, Rect.overlap,
    Rect.fromBoundingBox, Rect.left, Rect.right, Rect.top, Rect.bottom,
    Rect.x, Rect.y, Rect.w, Rect.h, Vector2D.mul, hm1, hm2]
  split_ifs <;>
    first
      | (exfalso; linarith)
      | (rw [min_eq_left (by linarith), max_eq_right (by linarith)]; ring)
      | (rw [min_eq_right (by linarith), max_eq_left (by linarith)]; ring)

/-- Vertical separation with `a` static and dynamic `b` strictly above
it. -/
lemma simple_sep_vert_astatic_bot (ia ib : ℕ)
    (acx acy asx asy bcx bcy bsx bsy : ℚ) (av bv : Vector2D)
    (h1 : bcy - bsy / 2 < acy - asy / 2)
    (h2 : bcy - bsy / 2 + bsy < acy - asy / 2 + asy)
    (hpos : acy - asy / 2 < bcy - bsy / 2 + bsy)
    (hdom : bcy - bsy / 2 + bsy - (acy - asy / 2) ≤
        min (acx - asx / 2 + asx) (bcx - bsx / 2 + bsx) -
          max (acx - asx / 2) (bcx - bsx / 2)) :
    (pairOverlap
        (simpleResolved ⟨ia, ⟨⟨acx, acy⟩, ⟨asx, asy⟩⟩, av, true⟩
          ⟨ib, ⟨⟨bcx, bcy⟩, ⟨bsx, bsy⟩⟩, bv, false⟩).1
        (simpleResolved ⟨ia, ⟨⟨acx, acy⟩, ⟨asx, asy⟩⟩, av, true⟩
          ⟨ib, ⟨⟨bcx, bcy⟩, ⟨bsx, bsy⟩⟩, bv, false⟩).2).bottom =
    (pairOverlap
        (simpleResolved ⟨ia, ⟨⟨acx, acy⟩, ⟨asx, asy⟩⟩, av, true⟩
          ⟨ib, ⟨⟨bcx, bcy⟩, ⟨bsx, bsy⟩⟩, bv, false⟩).1
        (simpleResolved ⟨ia, ⟨⟨acx, acy⟩, ⟨asx, asy⟩⟩, av, true⟩
          ⟨ib, ⟨⟨bcx, bcy⟩, ⟨bsx, bsy⟩⟩, bv, false⟩).2).top := by
  have hm1 : max (acy - asy / 2) (bcy - bsy / 2) = acy - asy / 2 := max_eq_left h1.le
  have hm2 : min (acy - asy / 2 + asy) (bcy - bsy / 2 + bsy) = bcy - bsy / 2 + bsy :=
    min_eq_right h2.le
  norm_num [simpleResolved, pairOverlap, solveCollisionSimple, Rect.overlap,
    Rect.fromBoundingBox, Rect.left, Rect.right, Rect.top, Rect.bottom,
    Rect.x, Rect.y, Rect.w, Rect.h, Vector2D.mul, hm1, hm2]
  split_ifs <;>
    first
      | (exfalso; linarith)
      | (rw [min_eq_left (by linarith), max_eq_right (by linarith)]; ring)
      | (rw [min_eq_right (by linarith), max_eq_left (by linarith)]; ring)

/-- The mass-weighted resolver leaves both participants with exactly the
same outer boxes as the simple resolver would: when a static body is
involved it falls back to the simple strategy entirely, and otherwise its
positional correction is line-for-line the simple strategy's (its impulse
touches only velocities). -/
lemma solveCollisionComplex_outerBox (sqrtFn : ℚ → ℚ) (ov : BoundingBox)
    (a b : AABBPhysicsProxy) :
    (solveCollisionComplex sqrtFn ov a b).1.outerBox =
      (solveCollisionSimple ov a b).1.outerBox ∧
    (solveCollisionComplex sqrtFn ov a b).2.outerBox =
      (solveCollisionSimple ov a b).2.outerBox := by
  obtain ⟨ia, abox, av, ast⟩ := a
  obtain ⟨ib, bbox, bv, bst⟩ := b
  cases ast with
  | true => simp [solveCollisionComplex]
  | false =>
    cases bst with
    | true => simp [solveCollisionComplex]
    | false =>
      simp only [solveCollisionComplex, solveCollisionSimple]
      norm_num
      split_ifs <;> exact ⟨rfl, rfl⟩

/-- The simple resolver separates along the dominant axis for any pair with
at most one static participant, given strict edge ordering there. -/
lemma simple_sep_main (a b : AABBPhysicsProxy)
    (hstat : ¬ (a.static = true ∧ b.static = true))
    (hw : (pairOverlap a b).left < (pairOverlap a b).right)
    (hh : (pairOverlap a b).top < (pairOverlap a b).bottom) :
    ((pairOverlap a b).right - (pairOverlap a b).left <
        (pairOverlap a b).bottom - (pairOverlap a b).top →
      ((a.outerBox.left < b.outerBox.left ∧ a.outerBox.right < b.outerBox.right) ∨
       (b.outerBox.left < a.outerBox.left ∧ b.outerBox.right < a.outerBox.right)) →
      (pairOverlap (simpleResolved a b).1 (simpleResolved a b).2).right =
        (pairOverlap (simpleResolved a b).1 (simpleResolved a b).2).left) ∧
    (¬ ((pairOverlap a b).right - (pairOverlap a b).left <
        (pairOverlap a b).bottom - (pairOverlap a b).top) →
      ((a.outerBox.top < b.outerBox.top ∧ a.outerBox.bottom < b.outerBox.bottom) ∨
       (b.outerBox.top < a.outerBox.top ∧ b.outerBox.bottom < a.outerBox.bottom)) →
      (pairOverlap (simpleResolved a b).1 (simpleResolved a b).2).bottom =
        (pairOverlap (simpleResolved a b).1 (simpleResolved a b).2).top) := by
  obtain ⟨ia, ⟨⟨acx, acy⟩, ⟨asx, asy⟩⟩, av, ast⟩ := a
  obtain ⟨ib, ⟨⟨bcx, bcy⟩, ⟨bsx, bsy⟩⟩, bv, bst⟩ := b
  have hswap :
      simpleResolved ⟨ia, ⟨⟨acx, acy⟩, ⟨asx, asy⟩⟩, av, ast⟩
          ⟨ib, ⟨⟨bcx, bcy⟩, ⟨bsx, bsy⟩⟩, bv, bst⟩ =
        ((simpleResolved ⟨ib, ⟨⟨bcx, bcy⟩, ⟨bsx, bsy⟩⟩, bv, bst⟩
            ⟨ia, ⟨⟨acx, acy⟩, ⟨asx, asy⟩⟩, av, ast⟩).2,
         (simpleResolved ⟨ib, ⟨⟨bcx, bcy⟩, ⟨bsx, bsy⟩⟩, bv, bst⟩
            ⟨ia, ⟨⟨acx, acy⟩, ⟨asx, asy⟩⟩, av, ast⟩).1) := by
    rw [simpleResolved, simpleResolved, pairOverlap_comm]
    exact solveCollisionSimple_swap _ _ _
  simp only [pairOverlap, Rect.overlap, Rect.left, Rect.right, Rect.top,
    Rect.bottom, Rect.x, Rect.y, Rect.w, Rect.h] at hw hh
  constructor
  · intro hdom hord
    simp only [pairOverlap, Rect.overlap, Rect.left, Rect.right, Rect.top,
      Rect.bottom, Rect.x, Rect.y, Rect.w, Rect.h] at hdom hord
    rcases hord with ⟨h1, h2⟩ | ⟨h1, h2⟩
    · have hpos : bcx - bsx / 2 < acx - asx / 2 + asx := by
        have q1 : bcx - bsx / 2 ≤ max (acx - asx / 2) (bcx - bsx / 2) := le_max_right _ _
        have q2 : min (acx - asx / 2 + asx) (bcx - bsx / 2 + bsx) ≤
            acx - asx / 2 + asx := min_le_left _ _
        linarith
      have hdA : acx - asx / 2 + asx - (bcx - bsx / 2) <
          min (acy - asy / 2 + asy) (bcy - bsy / 2 + bsy) -
            max (acy - asy / 2) (bcy - bsy / 2) := by
        rw [max_eq_right h1.le, min_eq_left h2.le] at hdom
        exact hdom
      have hdB : acx - asx / 2 + asx - (bcx - bsx / 2) <
          min (bcy - bsy / 2 + bsy) (acy - asy / 2 + asy) -
            max (bcy - bsy / 2) (acy - asy / 2) := by
        rw [min_comm (bcy - bsy / 2 + bsy) (acy - asy / 2 + asy),
          max_comm (bcy - bsy / 2) (acy - asy / 2)]
        exact hdA
      cases ast with
      | true =>
        cases bst with
        | true => exact absurd ⟨rfl, rfl⟩ hstat
        | false =>
          exact simple_sep_horiz_astatic_left ia ib acx acy asx asy bcx bcy bsx bsy
            av bv h1 h2 hpos hdA
      | false =>
        cases bst with
        | true =>
          rw [hswap, pairOverlap_comm]
          exact simple_sep_horiz_astatic_right ib ia bcx bcy bsx bsy acx acy asx asy
            bv av h1 h2 hpos hdB
        | false =>
          exact simple_sep_horiz ia ib acx acy asx asy bcx bcy bsx bsy av bv
            h1 h2 hpos hdA
    · have hpos : acx - asx / 2 < bcx - bsx / 2 + bsx := by
        have q1 : acx - asx / 2 ≤ max (acx - asx / 2) (bcx - bsx / 2) := le_max_left _ _
        have q2 : min (acx - asx / 2 + asx) (bcx - bsx / 2 + bsx) ≤
            bcx - bsx / 2 + bsx := min_le_right _ _
        linarith
      have hdA : bcx - bsx / 2 + bsx - (acx - asx / 2) <
          min (acy - asy / 2 + asy) (bcy - bsy / 2 + bsy) -
            max (acy - asy / 2) (bcy - bsy / 2) := by
        rw [max_eq_left h1.le, min_eq_right h2.le] at hdom
        exact hdom
      have hdB : bcx - bsx / 2 + bsx - (acx - asx / 2) <
          min (bcy - bsy / 2 + bsy) (acy - asy / 2 + asy) -
            max (bcy - bsy / 2) (acy - asy / 2) := by
        rw [min_comm (bcy - bsy / 2 + bsy) (acy - asy / 2 + asy),
          max_comm (bcy - bsy / 2) (acy - asy / 2)]
        exact hdA
      cases ast with
      | true =>
        cases bst with
        | true => exact absurd ⟨rfl, rfl⟩ hstat
        | false =>
          exact simple_sep_horiz_astatic_right ia ib acx acy asx asy bcx bcy bsx bsy
            av bv h1 h2 hpos hdA
      | false =>
        cases bst with
        | true =>
          rw [hswap, pairOverlap_comm]
          exact simple_sep_horiz_astatic_left ib ia bcx bcy bsx bsy acx acy asx asy
            bv av h1 h2 hpos hdB
        | false =>
          rw [hswap, pairOverlap_comm]
          exact simple_sep_horiz ib ia bcx bcy bsx bsy acx acy asx asy bv av
            h1 h2 hpos hdB
  · intro hdom hord
    simp only [pairOverlap, Rect.overlap, Rect.left, Rect.right, Rect.top,
      Rect.bottom, Rect.x, Rect.y, Rect.w, Rect.h] at hdom hord
    push_neg at hdom
    rcases hord with ⟨h1, h2⟩ | ⟨h1, h2⟩
    · have hpos : bcy - bsy / 2 < acy - asy / 2 + asy := by
        have q1 : bcy - bsy / 2 ≤ max (acy - asy / 2) (bcy - bsy / 2) := le_max_right _ _
        have q2 : min (acy - asy / 2 + asy) (bcy - bsy / 2 + bsy) ≤
            acy - asy / 2 + asy := min_le_left _ _
        linarith
      have hdA : acy - asy / 2 + asy - (bcy - bsy / 2) ≤
          min (acx - asx / 2 + asx) (bcx - bsx / 2 + bsx) -
            max (acx - asx / 2) (bcx - bsx / 2) := by
        rw [max_eq_right h1.le, min_eq_left h2.le] at hdom
        exact hdom
      have hdB : acy - asy / 2 + asy - (bcy - bsy / 2) ≤
          min (bcx - bsx / 2 + bsx) (acx - asx / 2 + asx) -
            max (bcx - bsx / 2) (acx - asx / 2) := by
        rw [min_comm (bcx - bsx / 2 + bsx) (acx - asx / 2 + asx),
          max_comm (bcx - bsx / 2) (acx - asx / 2)]
        exact hdA
      cases ast with
      | true =>
        cases bst with
        | true => exact absurd ⟨rfl, rfl⟩ hstat
        | false =>
          exact simple_sep_vert_astatic_top ia ib acx acy asx asy bcx bcy bsx bsy
            av bv h1 h2 hpos hdA
      | false =>
        cases bst with
        | true =>
          rw [hswap, pairOverlap_comm]
          exact simple_sep_vert_astatic_bot ib ia bcx bcy bsx bsy acx acy asx asy
            bv av h1 h2 hpos hdB
        | false =>
          exact simple_sep_vert ia ib acx acy asx asy bcx bcy bsx bsy av bv
            h1 h2 hpos hdA
    · have hpos : acy - asy / 2 < bcy - bsy / 2 + bsy := by
        have q1 : acy - asy / 2 ≤ max (acy - asy / 2) (bcy - bsy / 2) := le_max_left _ _
        have q2 : min (acy - asy / 2 + asy) (bcy - bsy / 2 + bsy) ≤
            bcy - bsy / 2 + bsy := min_le_right _ _
        linarith
      have hdA : bcy - bsy / 2 + bsy - (acy - asy / 2) ≤
          min (acx - asx / 2 + asx) (bcx - bsx / 2 + bsx) -
            max (acx - asx / 2) (bcx - bsx / 2) := by
        rw [max_eq_left h1.le, min_eq_right h2.le] at hdom
        exact hdom
      have hdB : bcy - bsy / 2 + bsy - (acy - asy / 2) ≤
          min (bcx - bsx / 2 + bsx) (acx - asx / 2 + asx) -
            max (bcx - bsx / 2) (acx - asx / 2) := by
        rw [min_comm (bcx - bsx / 2 + bsx) (acx - asx / 2 + asx),
          max_comm (bcx - bsx / 2) (acx - asx / 2)]
        exact hdA
      cases ast with
      | true =>
        cases bst with
        | true => exact absurd ⟨rfl, rfl⟩ hstat
        | false =>
          exact simple_sep_vert_astatic_bot ia ib acx acy asx asy bcx bcy bsx bsy
            av bv h1 h2 hpos hdA
      | false =>
        cases bst with
        | true =>
          rw [hswap, pairOverlap_comm]
          exact simple_sep_vert_astatic_top ib ia bcx bcy bsx bsy acx acy asx asy
            bv av h1 h2 hpos hdB
        | false =>
          rw [hswap, pairOverlap_comm]
          exact simple_sep_vert ib ia bcx bcy bsx bsy acx acy asx asy bv av
            h1 h2 hpos hdB

/-- C1 (amended): for a colliding pair with at most one static participant
whose boxes are strictly ordered along the dominant axis (each edge of one
strictly less than the corresponding edge of the other — in particular
neither box's extent contains the other's), one run of either resolution
strategy reduces the dominant-axis overlap to exactly zero: the simple
strategy by its half-depth pushes (full depth absorbed by the dynamic
partner when the other is static, via the doubled overlap), and the
mass-weighted strategy because it falls back to the simple strategy when a
static body is involved and otherwise performs the identical positional
correction.  Without the ordering the claim fails (see the counterexample,
where both centers lie on the same side of the overlap center and the
overlap survives intact). -/
theorem claim_C1_amended (sqrtFn : ℚ → ℚ) (a b : AABBPhysicsProxy)
    (hstat : ¬ (a.static = true ∧ b.static = true))
    (hw : (pairOverlap a b).left < (pairOverlap a b).right)
    (hh : (pairOverlap a b).top < (pairOverlap a b).bottom) :
    ((pairOverlap a b).right - (pairOverlap a b).left <
        (pairOverlap a b).bottom - (pairOverlap a b).top →
      ((a.outerBox.left < b.outerBox.left ∧ a.outerBox.right < b.outerBox.right) ∨
       (b.outerBox.left < a.outerBox.left ∧ b.outerBox.right < a.outerBox.right)) →
      ((pairOverlap (simpleResolved a b).1 (simpleResolved a b).2).right =
         (pairOverlap (simpleResolved a b).1 (simpleResolved a b).2).left ∧
       (pairOverlap (complexResolved sqrtFn a b).1
           (complexResolved sqrtFn a b).2).right =
         (pairOverlap (complexResolved sqrtFn a b).1
           (complexResolved sqrtFn a b).2).left)) ∧
    (¬ ((pairOverlap a b).right - (pairOverlap a b).left <
        (pairOverlap a b).bottom - (pairOverlap a b).top) →
      ((a.outerBox.top < b.outerBox.top ∧ a.outerBox.bottom < b.outerBox.bottom) ∨
       (b.outerBox.top < a.outerBox.top ∧ b.outerBox.bottom < a.outerBox.bottom)) →
      ((pairOverlap (simpleResolved a b).1 (simpleResolved a b).2).bottom =
         (pairOverlap (simpleResolved a b).1 (simpleResolved a b).2).top ∧
       (pairOverlap (complexResolved sqrtFn a b).1
           (complexResolved sqrtFn a b).2).bottom =
         (pairOverlap (complexResolved sqrtFn a b).1
           (complexResolved sqrtFn a b).2).top)) := by
  have hbox : (complexResolved sqrtFn a b).1.outerBox = (simpleResolved a b).1.outerBox ∧
      (complexResolved sqrtFn a b).2.outerBox = (simpleResolved a b).2.outerBox :=
    solveCollisionComplex_outerBox sqrtFn (pairOverlap a b) a b
  have hpo : pairOverlap (complexResolved sqrtFn a b).1 (complexResolved sqrtFn a b).2 =
      pairOverlap (simpleResolved a b).1 (simpleResolved a b).2 := by
    unfold pairOverlap
    rw [hbox.1, hbox.2]
  have hmain := simple_sep_main a b hstat hw hh
  exact ⟨fun hdom hord => ⟨hmain.1 hdom hord, by rw [hpo]; exact hmain.1 hdom hord⟩,
    fun hdom hord => ⟨hmain.2 hdom hord, by rw [hpo]; exact hmain.2 hdom hord⟩⟩

/-- C1 (counterexample): the pair `aC1`, `bC1` collides (overlap `2 × 10`,
dominant axis x), but both box centers lie on the same side of the overlap
center, both boxes are pushed the same way, and the dominant-axis overlap
after the simple resolver is still `2`, not `0`. -/
theorem claim_C1_counterexample :
    aC1.static = false ∧ bC1.static = false ∧
    pairOverlap aC1 bC1 = ⟨-1, 1, -5, 5⟩ ∧
    (pairOverlap (simpleResolved aC1 bC1).1 (simpleResolved aC1 bC1).2).right -
      (pairOverlap (simpleResolved aC1 bC1).1 (simpleResolved aC1 bC1).2).left = 2 := by
  refine ⟨rfl, rfl, ?_, ?_⟩ <;>
    norm_num [pairOverlap, simpleResolved, solveCollisionSimple, aC1, bC1,
      Rect.overlap, Rect.fromBoundingBox, Rect.left, Rect.right, Rect.top,
      Rect.bottom, Rect.x, Rect.y, Rect.w, Rect.h, Vector2D.mul]

/-- Witness for C1: an ordinary dynamic pair and a static/dynamic pair, each
separated under both strategies. -/
theorem claim_C1_witness :
    ((pairOverlap (simpleResolved aC1w bC1w).1 (simpleResolved aC1w bC1w).2).right =
       (pairOverlap (simpleResolved aC1w bC1w).1 (simpleResolved aC1w bC1w).2).left ∧
     (pairOverlap (complexResolved sqrtFn0 aC1w bC1w).1
         (complexResolved sqrtFn0 aC1w bC1w).2).right =
       (pairOverlap (complexResolved sqrtFn0 aC1w bC1w).1
         (complexResolved sqrtFn0 aC1w bC1w).2).left) ∧
    ((pairOverlap (simpleResolved aC1s bC1w).1 (simpleResolved aC1s bC1w).2).right =
       (pairOverlap (simpleResolved aC1s bC1w).1 (simpleResolved aC1s bC1w).2).left ∧
     (pairOverlap (complexResolved sqrtFn0 aC1s bC1w).1
         (complexResolved sqrtFn0 aC1s bC1w).2).right =
       (pairOverlap (complexResolved sqrtFn0 aC1s bC1w).1
         (complexResolved sqrtFn0 aC1s bC1w).2).left) :=
  ⟨(claim_C1_amended sqrtFn0 aC1w bC1w (by norm_num [aC1w, bC1w])
      (by norm_num [pairOverlap, aC1w, bC1w, Rect.overlap, Rect.left, Rect.right,
        Rect.top, Rect.bottom, Rect.x, Rect.y, Rect.w, Rect.h])
      (by norm_num [pairOverlap, aC1w, bC1w, Rect.overlap, Rect.left, Rect.right,
        Rect.top, Rect.bottom, Rect.x, Rect.y, Rect.w, Rect.h])).1
    (by norm_num [pairOverlap, aC1w, bC1w, Rect.overlap, Rect.left, Rect.right,
      Rect.top, Rect.bottom, Rect.x, Rect.y, Rect.w, Rect.h])
    (Or.inl (by norm_num [aC1w, bC1w, Rect.left, Rect.right, Rect.x, Rect.w])),
   (claim_C1_amended sqrtFn0 aC1s bC1w (by norm_num [aC1s, bC1w])
      (by norm_num [pairOverlap, aC1s, bC1w, Rect.overlap, Rect.left, Rect.right,
        Rect.top, Rect.bottom, Rect.x, Rect.y, Rect.w, Rect.h])
      (by norm_num [pairOverlap, aC1s, bC1w, Rect.overlap, Rect.left, Rect.right,
        Rect.top, Rect.bottom, Rect.x, Rect.y, Rect.w, Rect.h])).1
    (by norm_num [pairOverlap, aC1s, bC1w, Rect.overlap, Rect.left, Rect.right,
      Rect.top, Rect.bottom, Rect.x, Rect.y, Rect.w, Rect.h])
    (Or.inl (by norm_num [aC1s, bC1w, Rect.left, Rect.right, Rect.x, Rect.w]))⟩

/-! ## Claim C5: coincident centers in the mass-weighted resolver -/

/-- C5 (amended): when the two (non-static) box centers coincide, the
direction vector is the zero vector and `normalize` (given `Math.sqrt 0 = 0`)
no-ops on it, so the impulse vanishes: each velocity is merely damped by the
factor `0.999` — the signs are *not* reflected as the simple strategy would —
and the positional correction coincides with the simple strategy's; every
quantity stays well defined (the zero length is never divided by). -/
theorem claim_C5_coincident_centers (sqrtFn : ℚ → ℚ) (hsq : sqrtFn 0 = 0)
    (ov : BoundingBox) (a b : AABBPhysicsProxy)
    (ha : a.static = false) (hb : b.static = false)
    (hcc : a.outerBox.center = b.outerBox.center) :
    (solveCollisionComplex sqrtFn ov a b).1.velocity = a.velocity.mul 0.999 ∧
    (solveCollisionComplex sqrtFn ov a b).2.velocity = b.velocity.mul 0.999 ∧
    (solveCollisionComplex sqrtFn ov a b).1.outerBox =
      (solveCollisionSimple ov a b).1.outerBox ∧
    (solveCollisionComplex sqrtFn ov a b).2.outerBox =
      (solveCollisionSimple ov a b).2.outerBox := by
  obtain ⟨ia, ⟨⟨acx, acy⟩, ⟨asx, asy⟩⟩, ⟨avx, avy⟩, ast⟩ := a
  obtain ⟨ib, ⟨⟨bcx, bcy⟩, ⟨bsx, bsy⟩⟩, ⟨bvx, bvy⟩, bst⟩ := b
  cases ast with
  | true => simp at ha
  | false =>
  cases bst with
  | true => simp at hb
  | false =>
  simp only [Vector2D.mk.injEq] at hcc
  obtain ⟨hx, hy⟩ := hcc
  subst hx
  subst hy
  simp only [solveCollisionComplex, solveCollisionSimple, Vector2D.sub,
    Vector2D.normalizeWith, Vector2D.length2, Vector2D.dot, Vector2D.mul,
    Vector2D.add, vector_cpy_id, sub_self, mul_zero, zero_mul, add_zero,
    zero_add, hsq]
  norm_num
  split_ifs <;> norm_num

/-- C5 (counterexample): with coincident centers the mass-weighted resolver
does *not* behave exactly as the simple strategy: for `aC5` (velocity
`(5, 0)`) the simple strategy reflects the x-velocity to `-5`, while the
degenerate mass-weighted path merely damps it to `4.995`. -/
theorem claim_C5_counterexample :
    aC5.outerBox.center = bC5.outerBox.center ∧
    (solveCollisionComplex sqrtFn0 (pairOverlap aC5 bC5) aC5 bC5).1.velocity =
      ⟨4.995, 0⟩ ∧
    (solveCollisionSimple (pairOverlap aC5 bC5) aC5 bC5).1.velocity = ⟨-5, 0⟩ ∧
    (4.995 : ℚ) ≠ -5 := by
  refine ⟨rfl, ?_, ?_, by norm_num⟩ <;>
    norm_num [solveCollisionComplex, solveCollisionSimple, aC5, bC5, sqrtFn0,
      pairOverlap, Rect.overlap, Rect.fromBoundingBox, Rect.left, Rect.right,
      Rect.top, Rect.bottom, Rect.x, Rect.y, Rect.w, Rect.h, Vector2D.sub,
      Vector2D.normalizeWith, Vector2D.length2, Vector2D.dot, Vector2D.mul,
      Vector2D.add]

/-- Witness for C5 at the concrete coincident pair. -/
theorem claim_C5_witness :
    (solveCollisionComplex sqrtFn0 (pairOverlap aC5 bC5) aC5 bC5).1.velocity =
        aC5.velocity.mul 0.999 ∧
    (solveCollisionComplex sqrtFn0 (pairOverlap aC5 bC5) aC5 bC5).2.velocity =
        bC5.velocity.mul 0.999 ∧
    (solveCollisionComplex sqrtFn0 (pairOverlap aC5 bC5) aC5 bC5).1.outerBox =
      (solveCollisionSimple (pairOverlap aC5 bC5) aC5 bC5).1.outerBox ∧
    (solveCollisionComplex sqrtFn0 (pairOverlap aC5 bC5) aC5 bC5).2.outerBox =
      (solveCollisionSimple (pairOverlap aC5 bC5) aC5 bC5).2.outerBox :=
  claim_C5_coincident_centers sqrtFn0 rfl (pairOverlap aC5 bC5) aC5 bC5 rfl rfl rfl

/-! ## Claim C7: two 10×10 boxes with a 10×2 overlap resolve vertically -/

/-- C7 (amended): for two 10×10 non-static boxes with equal x-centers and
y-centers 8 apart (overlap 10 wide, 2 tall), approaching head-on
(`0 < avy`, `bvy < 0`), both strategies act along the vertical axis:
horizontal positions stay `cx`; the simple strategy leaves both x-velocities
untouched and reflects both y-velocities; the mass-weighted strategy swaps
the y-velocities (masses are equal) and damps the whole velocity by `0.999`,
so each y-velocity still changes sign, but each non-zero x-velocity is
scaled by `0.999` rather than left untouched. -/
theorem claim_C7_vertical_resolution (sqrtFn : ℚ → ℚ) (hsq : sqrtFn 64 = 8)
    (ia ib : ℕ) (cx acy avx avy bvx bvy : ℚ) (hva : 0 < avy) (hvb : bvy < 0) :
    pairOverlap (aC7 ia cx acy avx avy) (bC7 ib cx acy bvx bvy) =
      ⟨cx - 5, cx + 5, acy + 3, acy + 5⟩ ∧
    solveCollisionSimple (pairOverlap (aC7 ia cx acy avx avy) (bC7 ib cx acy bvx bvy))
        (aC7 ia cx acy avx avy) (bC7 ib cx acy bvx bvy) =
      (⟨ia, ⟨⟨cx, acy - 1⟩, ⟨10, 10⟩⟩, ⟨avx, -avy⟩, false⟩,
       ⟨ib, ⟨⟨cx, acy + 9⟩, ⟨10, 10⟩⟩, ⟨bvx, -bvy⟩, false⟩) ∧
    solveCollisionComplex sqrtFn
        (pairOverlap (aC7 ia cx acy avx avy) (bC7 ib cx acy bvx bvy))
        (aC7 ia cx acy avx avy) (bC7 ib cx acy bvx bvy) =
      (⟨ia, ⟨⟨cx, acy - 1⟩, ⟨10, 10⟩⟩, ⟨avx * 0.999, bvy * 0.999⟩, false⟩,
       ⟨ib, ⟨⟨cx, acy + 9⟩, ⟨10, 10⟩⟩, ⟨bvx * 0.999, avy * 0.999⟩, false⟩) ∧
    bvy * 0.999 < 0 ∧ 0 < avy * 0.999 := by
  have hov : pairOverlap (aC7 ia cx acy avx avy) (bC7 ib cx acy bvx bvy) =
      ⟨cx - 5, cx + 5, acy + 3, acy + 5⟩ := by
    norm_num [pairOverlap, aC7, bC7, Rect.overlap, Rect.left, Rect.right,
      Rect.top, Rect.bottom, Rect.x, Rect.y, Rect.w, Rect.h]
    exact ⟨by ring, by ring, by ring⟩
  refine ⟨hov, ?_, ?_, mul_neg_of_neg_of_pos hvb (by norm_num),
    mul_pos hva (by norm_num)⟩
  · rw [hov]
    have c1 : ¬ (acy + 3 + 1 < acy) := by linarith
    have c2 : acy + 3 + 1 < acy + 8 := by linarith
    norm_num [solveCollisionSimple, aC7, bC7, Rect.fromBoundingBox, Rect.w,
      Rect.h, Vector2D.mul, abs_of_pos hva, abs_of_neg hvb, c1, c2]
    exact ⟨by ring, by ring⟩
  · rw [hov]
    have c1 : ¬ (acy + 3 + 1 < acy) := by linarith
    have c2 : acy + 3 + 1 < acy + 8 := by linarith
    norm_num [solveCollisionComplex, aC7, bC7, Rect.fromBoundingBox, Rect.w,
      Rect.h, Vector2D.sub, Vector2D.normalizeWith, Vector2D.length2,
      Vector2D.dot, Vector2D.mul, Vector2D.add, hsq, abs_of_pos hva,
      abs_of_neg hvb, c1, c2]
    exact ⟨⟨by ring, by ring⟩, by ring, by ring⟩

/-- C7 (counterexample): with both boxes already moving upward
(`a.velocity = (3, -5)`, `b.velocity = (2, -5)`), the default mass-weighted
strategy exchanges zero momentum and merely damps: a's y-velocity keeps its
sign (no sign change) and a's x-velocity changes from `3` to `2.997` (not
untouched), contradicting the claim as stated. -/
theorem claim_C7_counterexample :
    (solveCollisionComplex sqrtFn64
        (pairOverlap (aC7 1 0 0 3 (-5)) (bC7 2 0 0 2 (-5)))
        (aC7 1 0 0 3 (-5)) (bC7 2 0 0 2 (-5))).1.velocity = ⟨2.997, -4.995⟩ ∧
    (aC7 1 0 0 3 (-5)).velocity.y < 0 ∧ (-4.995 : ℚ) < 0 ∧
    (aC7 1 0 0 3 (-5)).velocity.x = 3 ∧ (2.997 : ℚ) ≠ 3 := by
  refine ⟨?_, by norm_num [aC7], by norm_num, by norm_num [aC7], by norm_num⟩
  norm_num [solveCollisionComplex, aC7, bC7, sqrtFn64, pairOverlap,
    Rect.overlap, Rect.fromBoundingBox, Rect.left, Rect.right, Rect.top,
    Rect.bottom, Rect.x, Rect.y, Rect.w, Rect.h, Vector2D.sub,
    Vector2D.normalizeWith, Vector2D.length2, Vector2D.dot, Vector2D.mul,
    Vector2D.add]

/-- Witness for C7 at a concrete approaching pair. -/
theorem claim_C7_witness :
    pairOverlap (aC7 1 0 0 3 5) (bC7 2 0 0 2 (-7)) =
      ⟨0 - 5, 0 + 5, 0 + 3, 0 + 5⟩ ∧
    solveCollisionSimple (pairOverlap (aC7 1 0 0 3 5) (bC7 2 0 0 2 (-7)))
        (aC7 1 0 0 3 5) (bC7 2 0 0 2 (-7)) =
      (⟨1, ⟨⟨0, 0 - 1⟩, ⟨10, 10⟩⟩, ⟨3, -5⟩, false⟩,
       ⟨2, ⟨⟨0, 0 + 9⟩, ⟨10, 10⟩⟩, ⟨2, -(-7 : ℚ)⟩, false⟩) ∧
    solveCollisionComplex sqrtFn64
        (pairOverlap (aC7 1 0 0 3 5) (bC7 2 0 0 2 (-7)))
        (aC7 1 0 0 3 5) (bC7 2 0 0 2 (-7)) =
      (⟨1, ⟨⟨0, 0 - 1⟩, ⟨10, 10⟩⟩, ⟨3 * 0.999, (-7 : ℚ) * 0.999⟩, false⟩,
       ⟨2, ⟨⟨0, 0 + 9⟩, ⟨10, 10⟩⟩, ⟨2 * 0.999, 5 * 0.999⟩, false⟩) ∧
    (-7 : ℚ) * 0.999 < 0 ∧ 0 < (5 : ℚ) * 0.999 :=
  claim_C7_vertical_resolution sqrtFn64 (by norm_num [sqrtFn64]) 1 2 0 0 3 5 2 (-7)
    (by norm_num) (by norm_num)

/-! ## Claim C6: detection iff strictly positive overlap -/

/-- A fold over pairs of non-colliding proxies changes nothing. -/
lemma foldl_pairStep_no_overlap (sqrtFn : ℚ → ℚ) (simple : Bool)
    (ps : List AABBPhysicsProxy) (cs : List AABBCollision)
    (hno : ∀ (i j : Fin ps.length), i.1 ≠ j.1 →
      ¬ collides (ps.get i).outerBox (ps.get j).outerBox) :
    ∀ l : List (ℕ × ℕ), l.foldl (pairStep sqrtFn simple) (ps, cs) = (ps, cs) := by
  intro l
  induction l with
  | nil => rfl
  | cons hd tl ih =>
    have hstep : pairStep sqrtFn simple (ps, cs) hd = (ps, cs) := by
      by_cases h : hd.1 ≠ hd.2 ∧ hd.1 < ps.length ∧ hd.2 < ps.length
      · simp only [pairStep]
        rw [dif_pos h, if_neg]
        exact hno ⟨hd.1, h.2.1⟩ ⟨hd.2, h.2.2⟩ h.1
      · simp only [pairStep]
        rw [dif_neg h]
    rw [List.foldl_cons, hstep, ih]

/-- On an engine none of whose proxy pairs collide, detection clears the
collision list and moves nothing. -/
lemma checkCollisions_no_overlap (sqrtFn : ℚ → ℚ) (e : AABBPhysicsEngine)
    (hno : ∀ (i j : Fin e.proxies.length), i.1 ≠ j.1 →
      ¬ collides (e.proxies.get i).outerBox (e.proxies.get j).outerBox) :
    e.checkCollisions sqrtFn = { e with collisions := [] } := by
  simp only [AABBPhysicsEngine.checkCollisions]
  rw [foldl_pairStep_no_overlap sqrtFn e.simple_collisions e.proxies [] hno]

/-- C6: when the scan examines a pair of distinct proxies, a collision record
for that pair is appended exactly when the overlap of their two current boxes
has strictly positive width and height (an iff, stated as both implications;
when the pair does not genuinely overlap — disjoint or merely edge-touching —
the step leaves the whole state untouched); consequently an engine none of
whose pairs genuinely overlap ends detection with an empty collision list and
unchanged proxies. -/
theorem claim_C6_detection (sqrtFn : ℚ → ℚ) (simple : Bool)
    (st : List AABBPhysicsProxy × List AABBCollision) (i j : ℕ) (hij : i ≠ j)
    (hi : i < st.1.length) (hj : j < st.1.length)
    (e : AABBPhysicsEngine)
    (hno : ∀ (k l : Fin e.proxies.length), k.1 ≠ l.1 →
      ¬ collides (e.proxies.get k).outerBox (e.proxies.get l).outerBox) :
    ((collides (st.1.get ⟨i, hi⟩).outerBox (st.1.get ⟨j, hj⟩).outerBox →
        (pairStep sqrtFn simple st (i, j)).2 =
          st.2 ++ [⟨(st.1.get ⟨i, hi⟩).outerBox.overlap (st.1.get ⟨j, hj⟩).outerBox,
                    (st.1.get ⟨i, hi⟩).id, (st.1.get ⟨j, hj⟩).id⟩]) ∧
      (¬ collides (st.1.get ⟨i, hi⟩).outerBox (st.1.get ⟨j, hj⟩).outerBox →
        pairStep sqrtFn simple st (i, j) = st)) ∧
    (e.checkCollisions sqrtFn).collisions = [] ∧
    (e.checkCollisions sqrtFn).proxies = e.proxies := by
  refine ⟨⟨?_, ?_⟩, ?_, ?_⟩
  · intro hcol
    simp only [pairStep]
    rw [dif_pos ⟨hij, hi, hj⟩, if_pos hcol]
  · intro hcol
    simp only [pairStep]
    rw [dif_pos ⟨hij, hi, hj⟩, if_neg hcol]
  · rw [checkCollisions_no_overlap sqrtFn e hno]
  · rw [checkCollisions_no_overlap sqrtFn e hno]

/-- Witness for C6: pair (0,1) of an overlapping two-proxy state, and a
two-proxy engine with disjoint boxes. -/
theorem claim_C6_witness :
    ((collides pC6a.outerBox pC6b.outerBox →
        (pairStep sqrtFn0 true ([pC6a, pC6b], []) (0, 1)).2 =
          [] ++ [⟨pC6a.outerBox.overlap pC6b.outerBox, pC6a.id, pC6b.id⟩]) ∧
      (¬ collides pC6a.outerBox pC6b.outerBox →
        pairStep sqrtFn0 true ([pC6a, pC6b], []) (0, 1) = ([pC6a, pC6b], []))) ∧
    (engC6.checkCollisions sqrtFn0).collisions = [] ∧
    (engC6.checkCollisions sqrtFn0).proxies = engC6.proxies :=
  claim_C6_detection sqrtFn0 true ([pC6a, pC6b], []) 0 1 (by norm_num)
    (by norm_num) (by norm_num) engC6
    (by
      intro k l h
      fin_cases k <;> fin_cases l <;>
        first
          | (intro hc
             norm_num [engC6, collides, Rect.overlap, Rect.left, Rect.right,
               Rect.top, Rect.bottom, Rect.x, Rect.y, Rect.w, Rect.h] at hc
             done)
          | simp at h)

/-! ## Claim C9: a quiescent configuration is a fixed point of `update` -/

/-- Integration does not move a proxy with zero velocity. -/
lemma integrate_zero_velocity (ds : ℚ) (p : AABBPhysicsProxy)
    (hv : p.velocity = ⟨0, 0⟩) : integrate ds p = p := by
  obtain ⟨i, ⟨c, sz⟩, v, st⟩ := p
  simp only [AABBPhysicsProxy.mk.injEq] at hv
  subst hv
  simp [integrate, Rect.move, Vector2D.mul, Vector2D.add]

/-- The world-containment correction does nothing to a proxy at zero
distance from its legal region. -/
lemma handleWorldProxy_zero_distance (world : Rect) (p : AABBPhysicsProxy)
    (hd : ((world.cpy).inset p.outerBox.size).distance p.outerBox = ⟨0, 0⟩) :
    handleWorldProxy world p = p := by
  rw [handleWorldProxy_closed_form world p 0 0 hd]
  simp

/-- C9: if every proxy has zero velocity, no two proxies' boxes genuinely
overlap, and every proxy is at zero signed distance from its legal region,
then `update` only clears the collision list: no proxy's box or velocity
changes. -/
theorem claim_C9_quiescent_fixed_point (sqrtFn : ℚ → ℚ) (dt : ℚ)
    (e : AABBPhysicsEngine)
    (hv : ∀ p ∈ e.proxies, p.velocity = ⟨0, 0⟩)
    (hno : ∀ (i j : Fin e.proxies.length), i.1 ≠ j.1 →
      ¬ collides (e.proxies.get i).outerBox (e.proxies.get j).outerBox)
    (hd : ∀ p ∈ e.proxies,
      ((e.world_box.cpy).inset p.outerBox.size).distance p.outerBox = ⟨0, 0⟩) :
    e.update sqrtFn dt = { e with collisions := [] } := by
  have hint : e.proxies.map (integrate 0.016) = e.proxies := by
    have h := List.map_congr_left (fun p hp => integrate_zero_velocity 0.016 p (hv p hp))
    simpa using h
  have h1 : ({ e with proxies := e.proxies.map (integrate 0.016) }
      : AABBPhysicsEngine) = e := by
    rw [hint]
  have hwc : ∀ ps : List AABBPhysicsProxy, (∀ p ∈ ps, p ∈ e.proxies) →
      ps.map (handleWorldProxy e.world_box) = ps := by
    intro ps hps
    have h := List.map_congr_left
      (fun p hp => handleWorldProxy_zero_distance e.world_box p (hd p (hps p hp)))
    simpa using h
  calc e.update sqrtFn dt
      = (({ e with proxies := e.proxies.map (integrate 0.016) }
          : AABBPhysicsEngine).checkCollisions sqrtFn).handleWorldCollisions := rfl
    _ = (e.checkCollisions sqrtFn).handleWorldCollisions := by rw [h1]
    _ = ({ e with collisions := [] } : AABBPhysicsEngine).handleWorldCollisions := by
        rw [checkCollisions_no_overlap sqrtFn e hno]
    _ = { e with collisions := [] } := by
        simp only [AABBPhysicsEngine.handleWorldCollisions]
        rw [hwc e.proxies (fun p hp => hp)]

/-- Witness for C9 at a concrete quiescent engine (with a stale collision
record that `update` clears). -/
theorem claim_C9_witness :
    engC9.update sqrtFn0 1 = { engC9 with collisions := [] } :=
  claim_C9_quiescent_fixed_point sqrtFn0 1 engC9
    (by
      intro p hp
      simp only [engC9, List.mem_singleton] at hp
      subst hp
      rfl)
    (by
      intro k l h
      have hk := k.isLt
      have hl := l.isLt
      simp only [engC9, List.length_singleton] at hk hl
      omega)
    (by
      intro p hp
      simp only [engC9, List.mem_singleton] at hp
      subst hp
      norm_num [engC9, rect_cpy_id, Rect.inset, Rect.distance, Rect.left,
        Rect.right, Rect.top, Rect.bottom, Rect.x, Rect.y, Rect.w, Rect.h,
        Vector2D.sub])

/-! ## Claim C8: the simple strategy preserves velocity magnitudes -/

/-- The simple resolver only replaces velocity components by ± their own
absolute value. -/
lemma solveCollisionSimple_absVel (ov : BoundingBox) (a b : AABBPhysicsProxy) :
    |(solveCollisionSimple ov a b).1.velocity.x| = |a.velocity.x| ∧
    |(solveCollisionSimple ov a b).1.velocity.y| = |a.velocity.y| ∧
    |(solveCollisionSimple ov a b).2.velocity.x| = |b.velocity.x| ∧
    |(solveCollisionSimple ov a b).2.velocity.y| = |b.velocity.y| := by
  simp only [solveCollisionSimple]
  split_ifs <;> norm_num [abs_mul, abs_abs]

/-- The world-containment correction only replaces velocity components by
± their own absolute value. -/
lemma handleWorldProxy_absVel (world : Rect) (p : AABBPhysicsProxy) :
    |(handleWorldProxy world p).velocity.x| = |p.velocity.x| ∧
    |(handleWorldProxy world p).velocity.y| = |p.velocity.y| := by
  simp only [handleWorldProxy]
  split_ifs <;> norm_num [abs_mul, abs_abs]

/-- `absVelPreserved` is reflexive. -/
lemma absVelPreserved_refl (ps : List AABBPhysicsProxy) : absVelPreserved ps ps :=
  ⟨rfl, fun _ _ _ => ⟨rfl, rfl⟩⟩

/-- Mapping a per-proxy magnitude-preserving function preserves
`absVelPreserved`. -/
lemma absVelPreserved_map (orig ps : List AABBPhysicsProxy)
    (f : AABBPhysicsProxy → AABBPhysicsProxy) (h : absVelPreserved orig ps)
    (hf : ∀ p, |(f p).velocity.x| = |p.velocity.x| ∧
      |(f p).velocity.y| = |p.velocity.y|) :
    absVelPreserved orig (ps.map f) := by
  refine ⟨by simpa using h.1, ?_⟩
  intro k hk hk2
  have hk3 : k < ps.length := by simpa using hk
  have hmap : (ps.map f).get ⟨k, hk⟩ = f (ps.get ⟨k, hk3⟩) := by
    simp
  rw [hmap]
  obtain ⟨hx, hy⟩ := hf (ps.get ⟨k, hk3⟩)
  obtain ⟨hx2, hy2⟩ := h.2 k hk3 hk2
  exact ⟨hx.trans hx2, hy.trans hy2⟩

/-- One detection/resolution step under the simple strategy preserves
`absVelPreserved`. -/
lemma pairStep_absVel (sqrtFn : ℚ → ℚ) (orig : List AABBPhysicsProxy)
    (st : List AABBPhysicsProxy × List AABBCollision) (ij : ℕ × ℕ)
    (h : absVelPreserved orig st.1) :
    absVelPreserved orig (pairStep sqrtFn true st ij).1 := by
  obtain ⟨ps, cs⟩ := st
  simp only [pairStep]
  by_cases hc : ij.1 ≠ ij.2 ∧ ij.1 < ps.length ∧ ij.2 < ps.length
  · rw [dif_pos hc]
    set p := ps.get ⟨ij.1, hc.2.1⟩ with hp
    set q := ps.get ⟨ij.2, hc.2.2⟩ with hq
    by_cases hcol : (p.outerBox.overlap q.outerBox).top <
          (p.outerBox.overlap q.outerBox).bottom ∧
        (p.outerBox.overlap q.outerBox).left < (p.outerBox.overlap q.outerBox).right
    · rw [if_pos hcol]
      have hr := solveCollisionSimple_absVel (p.outerBox.overlap q.outerBox) p q
      have hsolve : solveCollision sqrtFn true (p.outerBox.overlap q.outerBox) p q =
          solveCollisionSimple (p.outerBox.overlap q.outerBox) p q := by
        simp [solveCollision]
      refine ⟨by simpa using h.1, ?_⟩
      intro k hk hk2
      have hk3 : k < ps.length := by simpa using hk
      have hget : ((ps.set ij.1 (solveCollision sqrtFn true
            (p.outerBox.overlap q.outerBox) p q).1).set ij.2
            (solveCollision sqrtFn true (p.outerBox.overlap q.outerBox) p q).2).get
            ⟨k, hk⟩ =
          if ij.2 = k then (solveCollision sqrtFn true
            (p.outerBox.overlap q.outerBox) p q).2
          else if ij.1 = k then (solveCollision sqrtFn true
            (p.outerBox.overlap q.outerBox) p q).1
          else ps.get ⟨k, hk3⟩ := by
        simp [List.get_eq_getElem, List.getElem_set]
      rw [hget]
      by_cases hkj : ij.2 = k
      · subst hkj
        rw [if_pos rfl, hsolve]
        obtain ⟨hx2, hy2⟩ := h.2 ij.2 hc.2.2 hk2
        exact ⟨hr.2.2.1.trans hx2, hr.2.2.2.trans hy2⟩
      · rw [if_neg hkj]
        by_cases hki : ij.1 = k
        · subst hki
          rw [if_pos rfl, hsolve]
          obtain ⟨hx2, hy2⟩ := h.2 ij.1 hc.2.1 hk2
          exact ⟨hr.1.trans hx2, hr.2.1.trans hy2⟩
        · rw [if_neg hki]
          exact h.2 k hk3 hk2
    · rw [if_neg hcol]
      exact h
  · rw [dif_neg hc]
    exact h

/-- The whole detection fold under the simple strategy preserves
`absVelPreserved`. -/
lemma foldl_pairStep_absVel (sqrtFn : ℚ → ℚ) (orig : List AABBPhysicsProxy) :
    ∀ (l : List (ℕ × ℕ)) (st : List AABBPhysicsProxy × List AABBCollision),
      absVelPreserved orig st.1 →
      absVelPreserved orig ((l.foldl (pairStep sqrtFn true) st).1) := by
  intro l
  induction l with
  | nil => exact fun st h => h
  | cons hd tl ih =>
    intro st h
    rw [List.foldl_cons]
    exact ih _ (pairStep_absVel sqrtFn orig st hd h)

/-- C8: with `simple_collisions = true`, one `update` preserves the absolute
value of both velocity components of every proxy (integration never writes
velocity; the simple resolver and the containment step only replace a
component by ± its own absolute value). -/
theorem claim_C8_update_preserves_speed (sqrtFn : ℚ → ℚ) (dt : ℚ)
    (e : AABBPhysicsEngine) (hs : e.simple_collisions = true) :
    absVelPreserved e.proxies (e.update sqrtFn dt).proxies := by
  have base : absVelPreserved e.proxies (e.proxies.map (integrate 0.016)) :=
    absVelPreserved_map _ _ _ (absVelPreserved_refl _) (fun _ => ⟨rfl, rfl⟩)
  show absVelPreserved e.proxies
    (((({ e with proxies := e.proxies.map (integrate 0.016) }
        : AABBPhysicsEngine).checkCollisions sqrtFn)).handleWorldCollisions).proxies
  simp only [AABBPhysicsEngine.handleWorldCollisions, AABBPhysicsEngine.checkCollisions]
  apply absVelPreserved_map
  · have hsimple : ({ e with proxies := e.proxies.map (integrate 0.016) }
        : AABBPhysicsEngine).simple_collisions = true := hs
    rw [hsimple]
    exact foldl_pairStep_absVel sqrtFn e.proxies _ _ base
  · exact fun p => handleWorldProxy_absVel _ p

/-- Witness for C8 at a concrete three-proxy engine. -/
theorem claim_C8_witness :
    absVelPreserved engC8.proxies (engC8.update sqrtFn0 1).proxies :=
  claim_C8_update_preserves_speed sqrtFn0 1 engC8 rfl
